import Mathlib

/-!
Shallow embedding of the risk-gated trading system (circuit breaker,
simulated broker ledger, A-share rule helpers, live-trading engine tick
processing and the error/recovery engine), together with theorems that
settle the specification claims against this embedding.

Modelling conventions
* JavaScript numbers are modelled as exact rationals (`ℚ`); the embedding
  does not model IEEE rounding, `NaN` or `Infinity`.  The only place the
  source can produce an undefined number is the price of a price-less
  MARKET order; such a price is modelled as `Option ℚ` and an undefined
  price is treated as `0` in the (unreachable for the claims) arithmetic
  positions where JavaScript would produce `NaN`.
* JavaScript truthiness of numbers (`0` is falsy) and of strings (`""` is
  falsy) is modelled explicitly at each use site (`jsOrQ`, emptiness
  tests).
* `Date` values and millisecond timestamps are modelled as integers; the
  wall clock is passed explicitly to every operation that reads it.
* The JavaScript `Map` objects are modelled as association lists keyed by
  the same keys (order id, stock code).
* Order ids (`ORD_${Date.now()}_...` strings) are modelled by a natural
  counter; the only property the source relies on is uniqueness.
-/

attribute [local semireducible] Rat.add Rat.sub Rat.mul Rat.inv

/-- JavaScript `a || b` for a possibly-undefined number `a`:
`undefined` and `0` are falsy. -/
def jsOrQ (a : Option ℚ) (b : ℚ) : ℚ :=
  match a with
  | some x => if x = 0 then b else x
  | none => b

/-- JavaScript truthiness of a possibly-undefined number. -/
def jsTruthyQ (a : Option ℚ) : Bool :=
  match a with
  | some x => x ≠ 0
  | none => false

/-- Truncation toward zero, as JavaScript coerces in `Math.trunc` and in
the remainder operator. `Int.div` is T-division, matching JavaScript. -/
def jsTrunc (x : ℚ) : ℤ :=
  Int.tdiv x.num x.den

/-- JavaScript remainder `a % n` (sign follows the dividend; `-100 % 100`
evaluates to `-0`, i.e. `0` as a rational). -/
def jsMod (a n : ℚ) : ℚ :=
  a - n * (jsTrunc (a / n) : ℚ)

/-- JavaScript `Math.floor` on a rational, returned as a rational. -/
def jsFloor (x : ℚ) : ℚ :=
  ((Rat.floor x : ℤ) : ℚ)

/-- JavaScript `Math.round` (half-up, toward positive infinity). -/
def jsRound (x : ℚ) : ℤ :=
  Rat.floor (x + 1/2)

/-- Rounding to cents: `Math.round(x * 100) / 100`. -/
def jsRound2 (x : ℚ) : ℚ :=
  ((jsRound (x * 100) : ℤ) : ℚ) / 100

/-- Substring test on character lists, used to model `String.includes`. -/
def charsContain (hay needle : List Char) : Bool :=
  match hay with
  | [] => needle.isEmpty
  | _ :: rest => needle.isPrefixOf hay || charsContain rest needle

/-- JavaScript `s.includes(pat)`. -/
def strIncludes (s pat : String) : Bool :=
  charsContain s.toList pat.toList

/-- ASCII lower-casing of one character (JavaScript `toLowerCase` on the
ASCII range; other characters, e.g. Chinese, are unchanged by both). -/
def asciiLowerChar (c : Char) : Char :=
  if 'A' ≤ c ∧ c ≤ 'Z' then Char.ofNat (c.toNat + 32) else c

/-- ASCII upper-casing of one character. -/
def asciiUpperChar (c : Char) : Char :=
  if 'a' ≤ c ∧ c ≤ 'z' then Char.ofNat (c.toNat - 32) else c

/-- JavaScript `s.toLowerCase()` on the ASCII range. -/
def strLower (s : String) : String :=
  ⟨s.toList.map asciiLowerChar⟩

/-- JavaScript `s.toUpperCase()` on the ASCII range. -/
def strUpper (s : String) : String :=
  ⟨s.toList.map asciiUpperChar⟩

/-- JavaScript `s.startsWith(pat)`. -/
def strStartsWith (s pat : String) : Bool :=
  pat.toList.isPrefixOf s.toList

/-- JavaScript `Array.prototype.slice(-n)`: the last `n` elements. -/
def keepLast (l : List α) (n : ℕ) : List α :=
  l.drop (l.length - n)

namespace CircuitBreaker

/-- Circuit levels, ordered NORMAL < WARNING < RESTRICTED < SUSPENDED <
HALTED (source `CircuitLevel`). -/
inductive Level where
  | NORMAL
  | WARNING
  | RESTRICTED
  | SUSPENDED
  | HALTED
deriving DecidableEq

/-- Trigger reasons (source `CircuitReason`). -/
inductive Reason where
  | DAILY_LOSS
  | WEEKLY_LOSS
  | MONTHLY_LOSS
  | MAX_DRAWDOWN
  | CONSECUTIVE_LOSS
  | TRADE_FREQUENCY
  | ORDER_REJECTION
  | EXECUTION_ERROR
  | MARKET_VOLATILITY
  | PRICE_ANOMALY
  | LIQUIDITY_CRISIS
  | CONNECTION_ERROR
  | DATA_ERROR
  | SYSTEM_ERROR
  | MANUAL
deriving DecidableEq

/-- Numeric rank used by `_compareLevels`. -/
def levelOrder : Level → ℕ
  | .NORMAL => 0
  | .WARNING => 1
  | .RESTRICTED => 2
  | .SUSPENDED => 3
  | .HALTED => 4

/-- Source `_compareLevels(level1, level2)`: difference of the ranks. -/
def compareLevels (l1 l2 : Level) : ℤ :=
  (levelOrder l1 : ℤ) - (levelOrder l2 : ℤ)

/-- Four ascending thresholds of one signal. -/
structure Thresholds where
  warning : ℚ
  restricted : ℚ
  suspended : ℚ
  halted : ℚ
deriving DecidableEq

/-- Threshold that belongs to a (non-NORMAL) level,
`check.thresholds[level.toLowerCase()]`. -/
def Thresholds.atLevel (t : Thresholds) : Level → ℚ
  | .WARNING => t.warning
  | .RESTRICTED => t.restricted
  | .SUSPENDED => t.suspended
  | .HALTED => t.halted
  | .NORMAL => 0

/-- Configuration of the breaker: per-signal thresholds, per-level caps and
cooldown durations (milliseconds). -/
structure Config where
  dailyLoss : Thresholds
  weeklyLoss : Thresholds
  monthlyLoss : Thresholds
  drawdown : Thresholds
  consecutiveLoss : Thresholds
  tradeFrequency : Thresholds
  orderRejection : Thresholds
  marketVolatility : Thresholds
  positionLimits : Level → ℚ
  singleTradeLimits : Level → ℚ
  cooldownPeriods : Level → ℤ

/-- Default configuration values of the source constructor. The source has
no cooldown entry for NORMAL (it is never stamped); `0` stands in. -/
def defaultConfig : Config where
  dailyLoss := ⟨2/100, 3/100, 5/100, 8/100⟩
  weeklyLoss := ⟨5/100, 8/100, 10/100, 15/100⟩
  monthlyLoss := ⟨8/100, 12/100, 15/100, 20/100⟩
  drawdown := ⟨8/100, 12/100, 15/100, 20/100⟩
  consecutiveLoss := ⟨3, 5, 7, 10⟩
  tradeFrequency := ⟨5, 8, 10, 15⟩
  orderRejection := ⟨2, 3, 5, 8⟩
  marketVolatility := ⟨5/100, 8/100, 10/100, 15/100⟩
  positionLimits := fun l => match l with
    | .NORMAL => 8/10 | .WARNING => 6/10 | .RESTRICTED => 3/10
    | .SUSPENDED => 0 | .HALTED => 0
  singleTradeLimits := fun l => match l with
    | .NORMAL => 3/10 | .WARNING => 2/10 | .RESTRICTED => 1/10
    | .SUSPENDED => 0 | .HALTED => 0
  cooldownPeriods := fun l => match l with
    | .NORMAL => 0
    | .WARNING => 30 * 60 * 1000
    | .RESTRICTED => 2 * 60 * 60 * 1000
    | .SUSPENDED => 24 * 60 * 60 * 1000
    | .HALTED => 7 * 24 * 60 * 60 * 1000

/-- One recorded trigger of `check`. -/
structure Trigger where
  reason : Reason
  name : String
  level : Level
  value : ℚ
  threshold : ℚ
deriving DecidableEq

/-- One entry of the bounded trigger history. -/
structure HistoryEntry where
  level : Level
  reason : Reason
  triggers : List Trigger
  timestamp : ℤ
  previousLevel : Level
deriving DecidableEq

/-- Mutable breaker state (source `this.state`). -/
structure State where
  currentLevel : Level
  lastTriggeredAt : Option ℤ
  lastTriggeredReason : Option Reason
  triggerHistory : List HistoryEntry
  cooldownEndTime : Option ℤ
  consecutiveLosses : ℚ
  consecutiveRejections : ℚ
  hourlyTradeCount : ℚ
  lastHourReset : ℤ
deriving DecidableEq

/-- Fresh state of the source constructor (and of `reset()`). -/
def initState (now : ℤ) : State where
  currentLevel := .NORMAL
  lastTriggeredAt := none
  lastTriggeredReason := none
  triggerHistory := []
  cooldownEndTime := none
  consecutiveLosses := 0
  consecutiveRejections := 0
  hourlyTradeCount := 0
  lastHourReset := now

/-- Metrics argument of `check`; `none` models an absent (undefined)
property, which the destructuring defaults replace. -/
structure Metrics where
  dailyPnL : Option ℚ := none
  weeklyPnL : Option ℚ := none
  monthlyPnL : Option ℚ := none
  currentDrawdown : Option ℚ := none
  consecutiveLosses : Option ℚ := none
  hourlyTrades : Option ℚ := none
  consecutiveRejections : Option ℚ := none
  marketVolatility : Option ℚ := none
deriving DecidableEq

/-- Metrics after the destructuring defaults of `check`. -/
structure Resolved where
  dailyPnL : ℚ
  weeklyPnL : ℚ
  monthlyPnL : ℚ
  currentDrawdown : ℚ
  consecutiveLosses : ℚ
  hourlyTrades : ℚ
  consecutiveRejections : ℚ
  marketVolatility : ℚ

/-- Destructuring with defaults at the top of `check`. -/
def Metrics.resolve (m : Metrics) (st : State) : Resolved where
  dailyPnL := m.dailyPnL.getD 0
  weeklyPnL := m.weeklyPnL.getD 0
  monthlyPnL := m.monthlyPnL.getD 0
  currentDrawdown := m.currentDrawdown.getD 0
  consecutiveLosses := m.consecutiveLosses.getD st.consecutiveLosses
  hourlyTrades := m.hourlyTrades.getD st.hourlyTradeCount
  consecutiveRejections := m.consecutiveRejections.getD st.consecutiveRejections
  marketVolatility := m.marketVolatility.getD 0

/-- Source `_getLevel(value, thresholds)`. -/
def getLevel (value : ℚ) (t : Thresholds) : Level :=
  if t.halted ≤ value then .HALTED
  else if t.suspended ≤ value then .SUSPENDED
  else if t.restricted ≤ value then .RESTRICTED
  else if t.warning ≤ value then .WARNING
  else .NORMAL

/-- One element of the `checks` array inside `check`: checked value,
thresholds, reason and display name. -/
structure CheckItem where
  value : ℚ
  thresholds : Thresholds
  reason : Reason
  name : String

/-- The `checks` array of `check`, in source order. -/
def checkItems (cfg : Config) (r : Resolved) : List CheckItem :=
  [ ⟨|r.dailyPnL|, cfg.dailyLoss, .DAILY_LOSS, "日亏损"⟩,
    ⟨|r.weeklyPnL|, cfg.weeklyLoss, .WEEKLY_LOSS, "周亏损"⟩,
    ⟨|r.monthlyPnL|, cfg.monthlyLoss, .MONTHLY_LOSS, "月亏损"⟩,
    ⟨r.currentDrawdown, cfg.drawdown, .MAX_DRAWDOWN, "回撤"⟩,
    ⟨r.consecutiveLosses, cfg.consecutiveLoss, .CONSECUTIVE_LOSS, "连续亏损"⟩,
    ⟨r.hourlyTrades, cfg.tradeFrequency, .TRADE_FREQUENCY, "交易频率"⟩,
    ⟨r.consecutiveRejections, cfg.orderRejection, .ORDER_REJECTION, "订单拒绝"⟩,
    ⟨r.marketVolatility, cfg.marketVolatility, .MARKET_VOLATILITY, "市场波动"⟩ ]

/-- Loss-kind reasons guarded by the profit test in the loop of `check`. -/
def isLossReason : Reason → Bool
  | .DAILY_LOSS => true
  | .WEEKLY_LOSS => true
  | .MONTHLY_LOSS => true
  | _ => false

/-- The loop body of `check`: an item is skipped when it is one of the
three loss checks and any of the three PnL values is positive (the profit
guard of the source tests all three PnL values, not the item's own one);
otherwise it contributes a trigger when its level is not NORMAL. -/
def triggersOf (cfg : Config) (r : Resolved) : List Trigger :=
  (checkItems cfg r).filterMap fun item =>
    if isLossReason item.reason ∧ (r.dailyPnL > 0 ∨ r.weeklyPnL > 0 ∨ r.monthlyPnL > 0) then
      none
    else
      let lvl := getLevel item.value item.thresholds
      if lvl ≠ .NORMAL then
        some ⟨item.reason, item.name, lvl, item.value, item.thresholds.atLevel lvl⟩
      else
        none

/-- Maximum level of the collected triggers (`maxLevel` of the loop). -/
def maxLevelOf (triggers : List Trigger) : Level :=
  triggers.foldl (fun acc t => if compareLevels t.level acc > 0 then t.level else acc) .NORMAL

/-- Source `_triggerCircuit(level, reason, triggers)`. -/
def triggerCircuit (cfg : Config) (st : State) (now : ℤ) (level : Level)
    (reason : Reason) (triggers : List Trigger) : State :=
  let pushed := st.triggerHistory ++
    [⟨level, reason, triggers, now, st.currentLevel⟩]
  { st with
    currentLevel := level
    lastTriggeredAt := some now
    lastTriggeredReason := some reason
    cooldownEndTime := some (now + cfg.cooldownPeriods level)
    triggerHistory := if pushed.length > 100 then keepLast pushed 100 else pushed }

/-- Source `canTrade()`. -/
def canTrade (st : State) : Bool :=
  st.currentLevel ≠ .HALTED

/-- Source `canOpenPosition()`. -/
def canOpenPosition (st : State) : Bool :=
  st.currentLevel = .NORMAL ∨ st.currentLevel = .WARNING ∨ st.currentLevel = .RESTRICTED

/-- Result object returned by `check`. -/
structure CheckResult where
  level : Level
  triggers : List Trigger
  canTrade : Bool
  canOpenPosition : Bool
  positionLimit : ℚ
  singleTradeLimit : ℚ
deriving DecidableEq

/-- Source `check(metrics)`: evaluates every signal, escalates when the
maximum triggered level exceeds the current one, and returns the status
snapshot together with the updated state. -/
def check (cfg : Config) (st : State) (m : Metrics) (now : ℤ) :
    CheckResult × State :=
  let r := m.resolve st
  let triggers := triggersOf cfg r
  let maxLevel := maxLevelOf triggers
  let st' :=
    if compareLevels maxLevel st.currentLevel > 0 then
      triggerCircuit cfg st now maxLevel
        ((triggers.head?.map Trigger.reason).getD .SYSTEM_ERROR) triggers
    else st
  (⟨st'.currentLevel, triggers, canTrade st', canOpenPosition st',
    cfg.positionLimits st'.currentLevel, cfg.singleTradeLimits st'.currentLevel⟩, st')

/-- One-step level descent of `_autoRecover` (the `switch`); the default
branch of the source returns without a change, modelled by the NORMAL
case. -/
def stepDown : Level → Level
  | .HALTED => .SUSPENDED
  | .SUSPENDED => .RESTRICTED
  | .RESTRICTED => .WARNING
  | .WARNING => .NORMAL
  | .NORMAL => .NORMAL

/-- Source `_autoRecover()`: moves one level down and re-arms the cooldown
of the new level, clearing it when the new level is NORMAL. -/
def autoRecover (cfg : Config) (st : State) (now : ℤ) : State :=
  match st.currentLevel with
  | .NORMAL => st
  | lvl =>
    let newLevel := stepDown lvl
    { st with
      currentLevel := newLevel
      cooldownEndTime :=
        if newLevel ≠ Level.NORMAL then some (now + cfg.cooldownPeriods newLevel)
        else none }

/-- One tick of the interval body installed by `_startAutoRecoveryCheck`:
hourly trade-count reset, then the cooldown test
(`new Date() >= cooldownEndTime`) guarding `_autoRecover`. -/
def sweepTick (cfg : Config) (st : State) (now : ℤ) : State :=
  let st1 :=
    if now - st.lastHourReset > 3600000 then
      { st with hourlyTradeCount := 0, lastHourReset := now }
    else st
  match st1.cooldownEndTime with
  | some t => if t ≤ now then autoRecover cfg st1 now else st1
  | none => st1

/-- Source `recordTrade(trade)`. -/
def recordTrade (st : State) (pnl : ℚ) : State :=
  let st1 := { st with hourlyTradeCount := st.hourlyTradeCount + 1 }
  if pnl < 0 then { st1 with consecutiveLosses := st1.consecutiveLosses + 1 }
  else if pnl > 0 then { st1 with consecutiveLosses := 0 }
  else st1

/-- Source `recordRejection()`. -/
def recordRejection (st : State) : State :=
  { st with consecutiveRejections := st.consecutiveRejections + 1 }

/-- Source `recordOrderSuccess()`. -/
def recordOrderSuccess (st : State) : State :=
  { st with consecutiveRejections := 0 }

end CircuitBreaker

namespace Broker

/-- Order status enumeration of the source (`OrderStatus`). -/
inductive OrderStatus where
  | PENDING
  | SUBMITTED
  | PARTIAL_FILLED
  | FILLED
  | CANCELLED
  | REJECTED
  | EXPIRED
deriving DecidableEq

/-- Order side enumeration. -/
inductive OrderSide where
  | BUY
  | SELL
deriving DecidableEq

/-- Order type enumeration. -/
inductive OrderType where
  | MARKET
  | LIMIT
  | LIMIT_MAKER
deriving DecidableEq

/-- Quote snapshot used by the simulated execution; `ask1`/`bid1` may be
absent (undefined), and a `0` value is falsy for the `||` fallbacks. -/
structure Quote where
  price : ℚ
  ask1 : Option ℚ := none
  bid1 : Option ℚ := none
deriving DecidableEq

/-- Order request passed to `submitOrder`; `price` is absent for the
engine's stop-loss market sell, `type` defaults to LIMIT. -/
structure OrderReq where
  code : String
  side : OrderSide
  type : Option OrderType := none
  price : Option ℚ := none
  quantity : ℚ
  stopPrice : Option ℚ := none
deriving DecidableEq

/-- Order record owned by the broker after submission. -/
structure Order where
  orderId : ℕ
  code : String
  side : OrderSide
  type : OrderType
  price : Option ℚ
  quantity : ℚ
  status : OrderStatus
  filledQuantity : ℚ
  avgPrice : ℚ
  frozenAmount : Option ℚ
deriving DecidableEq

/-- Position record (`this.positions` values). `profitPercent` keeps the
numeric value whose formatted string the source stores. -/
structure Position where
  code : String
  name : String := ""
  shares : ℚ
  availableShares : ℚ
  cost : ℚ
  avgPrice : ℚ
  currentPrice : ℚ := 0
  marketValue : ℚ := 0
  profit : ℚ := 0
  profitPercent : ℚ := 0
deriving DecidableEq

/-- Account record (`this.account`). -/
structure Account where
  cash : ℚ
  frozenCash : ℚ
  totalAssets : ℚ
  available : ℚ
  marketValue : ℚ
deriving DecidableEq

/-- Trade record appended on each fill. -/
structure Trade where
  orderId : ℕ
  code : String
  side : OrderSide
  price : ℚ
  quantity : ℚ
  amount : ℚ
  commission : ℚ
  stampTax : ℚ
  totalFee : ℚ
deriving DecidableEq

/-- Whole simulated-broker state. -/
structure BState where
  account : Account
  commission : ℚ
  stampTax : ℚ
  minCommission : ℚ
  orders : List Order
  positions : List Position
  trades : List Trade
  nextId : ℕ
deriving DecidableEq

/-- Constructor state of `SimulatedBroker` with an initial cash amount and
the default fee configuration. -/
def initBroker (initialCash : ℚ) : BState where
  account := ⟨initialCash, 0, initialCash, initialCash, 0⟩
  commission := 3/10000
  stampTax := 1/1000
  minCommission := 5
  orders := []
  positions := []
  trades := []
  nextId := 0

/-- Lookup `this.orders.get(orderId)`. -/
def lookupOrder (st : BState) (oid : ℕ) : Option Order :=
  st.orders.find? (fun o => o.orderId = oid)

/-- Map-style in-place update of one order. -/
def setOrder (orders : List Order) (oid : ℕ) (f : Order → Order) : List Order :=
  orders.map (fun o => if o.orderId = oid then f o else o)

/-- Lookup `this.positions.get(code)`. -/
def lookupPos (st : BState) (code : String) : Option Position :=
  st.positions.find? (fun p => p.code = code)

/-- Map-style in-place update of one position. -/
def setPos (ps : List Position) (code : String) (f : Position → Position) : List Position :=
  ps.map (fun p => if p.code = code then f p else p)

/-- Map-style delete of one position. -/
def removePos (ps : List Position) (code : String) : List Position :=
  ps.filter (fun p => ¬ p.code = code)

/-- Source `validateOrder(order)`: required fields (JavaScript truthiness:
the empty code string and a zero quantity are falsy), the 100-share lot
rule via the JavaScript remainder, the buy-side cash check against the
stored `available` field, and the sell-side check against the position's
`availableShares`. An undefined buy price makes the cash comparison a
`NaN` comparison, which is false, so the order passes it. -/
def validateOrder (st : BState) (o : OrderReq) : Bool :=
  if o.code = "" ∨ o.quantity = 0 then false
  else if jsMod o.quantity 100 ≠ 0 then false
  else if o.side = .BUY then
    match o.price with
    | some p => ¬ (p * o.quantity * (1 + st.commission) > st.account.available)
    | none => true
  else
    let availableShares := ((lookupPos st o.code).map Position.availableShares).getD 0
    ¬ (o.quantity > availableShares)

/-- Result object of `submitOrder`. -/
structure SubmitResult where
  success : Bool
  orderId : Option ℕ
deriving DecidableEq

/-- Source `submitOrder(order)`: validate, create the SUBMITTED order,
freeze buy-side cash (price × quantity × (1 + commission)); the simulated
execution itself is deferred (`setTimeout`) and modelled as the separate
`simulateExecution` operation. An undefined buy price would freeze `NaN`
in JavaScript; the idealization freezes `0`. -/
def submitOrder (st : BState) (o : OrderReq) : SubmitResult × BState :=
  if ¬ validateOrder st o then (⟨false, none⟩, st)
  else
    let oid := st.nextId
    let frozenAmount : Option ℚ :=
      if o.side = .BUY then some ((o.price.getD 0) * o.quantity * (1 + st.commission))
      else none
    let newOrder : Order :=
      ⟨oid, o.code, o.side, o.type.getD .LIMIT, o.price, o.quantity,
        .SUBMITTED, 0, 0, frozenAmount⟩
    let st' :=
      { st with
        account := { st.account with
          frozenCash := st.account.frozenCash + (frozenAmount.getD 0) }
        orders := st.orders ++ [newOrder]
        nextId := st.nextId + 1 }
    (⟨true, some oid⟩, st')

/-- Fill price of `simulateExecution`: the order price, clamped against the
opposing best quote when a quote is available (`Math.max` for buys against
`ask1 || price`, `Math.min` for sells against `bid1 || price`); an
undefined order price propagates (JavaScript `NaN`). -/
def execPrice (side : OrderSide) (price : Option ℚ) (q : Option Quote) : Option ℚ :=
  match q with
  | none => price
  | some qu =>
    price.map fun p =>
      match side with
      | .BUY => max p (jsOrQ qu.ask1 qu.price)
      | .SELL => min p (jsOrQ qu.bid1 qu.price)

/-- Source `simulateExecution(orderId)` with the quote lookup result passed
explicitly: full fill at the clamped price, fee computation, cash/position
application (T+1: a buy does not increase `availableShares`), trade
recording. The `canExecute` guard of the source is the literal `true`. -/
def simulateExecution (st : BState) (oid : ℕ) (q : Option Quote) : BState :=
  match lookupOrder st oid with
  | none => st
  | some ord =>
    if ord.status ≠ .SUBMITTED then st
    else
      let canExecute := true
      if canExecute then
        let ep := (execPrice ord.side ord.price q).getD 0
        let amount := ep * ord.quantity
        let commission := max (amount * st.commission) st.minCommission
        let stampTax := if ord.side = .SELL then amount * st.stampTax else 0
        let totalFee := commission + stampTax
        let st1 :=
          if ord.side = .BUY then
            let account' := { st.account with
              frozenCash := st.account.frozenCash - ord.frozenAmount.getD 0
              cash := st.account.cash - (amount + totalFee) }
            let pos := (lookupPos st ord.code).getD
              ⟨ord.code, "", 0, 0, 0, 0, ep, 0, 0, 0⟩
            let totalCost := pos.cost + amount + totalFee
            let totalShares := pos.shares + ord.quantity
            let pos' := { pos with
              shares := totalShares
              cost := totalCost
              avgPrice := totalCost / totalShares }
            let positions' :=
              match lookupPos st ord.code with
              | some _ => setPos st.positions ord.code (fun _ => pos')
              | none => st.positions ++ [pos']
            { st with account := account', positions := positions' }
          else
            let account' := { st.account with
              cash := st.account.cash + (amount - totalFee) }
            let positions' :=
              match lookupPos st ord.code with
              | some pos =>
                let pos' := { pos with
                  shares := pos.shares - ord.quantity
                  availableShares := pos.availableShares - ord.quantity
                  cost := pos.cost - pos.avgPrice * ord.quantity }
                if pos'.shares ≤ 0 then removePos st.positions ord.code
                else setPos st.positions ord.code (fun _ => pos')
              | none => st.positions
            { st with account := account', positions := positions' }
        let trade : Trade :=
          ⟨oid, ord.code, ord.side, ep, ord.quantity, amount, commission, stampTax, totalFee⟩
        { st1 with
          orders := setOrder st1.orders oid (fun o =>
            { o with status := .FILLED, filledQuantity := ord.quantity, avgPrice := ep })
          trades := st1.trades ++ [trade] }
      else
        { st with orders := setOrder st.orders oid (fun o => { o with status := .PENDING }) }

/-- Source `cancelOrder(orderId)`: refused for missing, filled or already
cancelled orders; releases the frozen cash of a buy order (the truthiness
test skips a zero `frozenAmount`). -/
def cancelOrder (st : BState) (oid : ℕ) : Bool × BState :=
  match lookupOrder st oid with
  | none => (false, st)
  | some ord =>
    if ord.status = .FILLED ∨ ord.status = .CANCELLED then (false, st)
    else
      let frozen := ord.frozenAmount.getD 0
      let account' :=
        if ord.side = .BUY ∧ frozen ≠ 0 then
          { st.account with frozenCash := st.account.frozenCash - frozen }
        else st.account
      (true,
        { st with
          account := account'
          orders := setOrder st.orders oid (fun o => { o with status := .CANCELLED }) })

/-- Source `updateAvailableShares()`: the daily T+1 settlement sweep. -/
def updateAvailableShares (st : BState) : BState :=
  { st with positions := st.positions.map (fun p => { p with availableShares := p.shares }) }

/-- Source `getAccount()`: refreshes each quoted position's mark data,
recomputes the account's market value, total assets and available cash,
and returns the account snapshot. Positions without a cached quote
contribute nothing to the recomputed market value. -/
def getAccount (st : BState) (quotes : String → Option Quote) : Account × BState :=
  let positions' := st.positions.map fun p =>
    match quotes p.code with
    | some q =>
      let mv := p.shares * q.price
      let profit := mv - p.cost
      { p with
        currentPrice := q.price
        marketValue := mv
        profit := profit
        profitPercent := profit / p.cost * 100 }
    | none => p
  let mv := positions'.foldl
    (fun acc p => if (quotes p.code).isSome then acc + p.marketValue else acc) 0
  let account' := { st.account with
    marketValue := mv
    totalAssets := st.account.cash + mv
    available := st.account.cash - st.account.frozenCash }
  (account', { st with account := account', positions := positions' })

/-- One externally drivable broker operation. -/
inductive BOp where
  | submit (o : OrderReq)
  | execute (oid : ℕ) (q : Option Quote)
  | cancel (oid : ℕ)
  | settleT1
  | readAccount (quotes : String → Option Quote)

/-- State transition of one operation. -/
def applyOp (st : BState) : BOp → BState
  | .submit o => (submitOrder st o).2
  | .execute oid q => simulateExecution st oid q
  | .cancel oid => (cancelOrder st oid).2
  | .settleT1 => updateAvailableShares st
  | .readAccount quotes => (getAccount st quotes).2

/-- Run a sequence of operations from a state. -/
def runOps (st : BState) : List BOp → BState
  | [] => st
  | op :: rest => runOps (applyOp st op) rest

/-- Claim predicate: every submitted BUY request of the sequence has a
non-negative quantity. -/
def buyQuantitiesNonneg : List BOp → Prop
  | [] => True
  | .submit o :: rest => (o.side = .BUY → 0 ≤ o.quantity) ∧ buyQuantitiesNonneg rest
  | _ :: rest => buyQuantitiesNonneg rest

/-- Claim predicate: the T+1 position invariant of a broker state. -/
def posInvariant (st : BState) : Prop :=
  ∀ p ∈ st.positions, p.availableShares ≤ p.shares

/-- Auxiliary invariant: every stored BUY order has non-negative quantity. -/
def ordersBuyNonneg (st : BState) : Prop :=
  ∀ o ∈ st.orders, o.side = .BUY → 0 ≤ o.quantity

/-- Status set reachable in the simulated venue. -/
def reachableStatus (s : OrderStatus) : Prop :=
  s = .SUBMITTED ∨ s = .FILLED ∨ s = .CANCELLED

/-- Full-fill bookkeeping invariant of stored orders. -/
def ordersWellFormed (st : BState) : Prop :=
  ∀ o ∈ st.orders, reachableStatus o.status ∧ (o.status = .FILLED → o.filledQuantity = o.quantity)

/-- Bookkeeping invariant: stored order ids are below the id counter and
pairwise distinct. -/
def ordersDistinct (st : BState) : Prop :=
  (∀ o ∈ st.orders, o.orderId < st.nextId) ∧
  st.orders.Pairwise (fun a b => a.orderId ≠ b.orderId)

end Broker

namespace AShare

/-- Stock board classification. -/
inductive BoardType where
  | MAIN_SH
  | MAIN_SZ
  | GEM
  | STAR
  | BSE
  | B_SHARE_SH
  | B_SHARE_SZ
  | UNKNOWN
deriving DecidableEq

/-- Stock trading status. -/
inductive StockStatus where
  | NORMAL
  | SUSPENDED
  | ST
  | ST_STAR
  | DELISTING
  | NEW_LISTING
  | RESUMPTION
deriving DecidableEq

/-- Intraday session classification. -/
inductive TradingSession where
  | PRE_MARKET
  | CALL_AUCTION_OPEN
  | CALL_AUCTION_MATCH
  | MORNING_TRADING
  | LUNCH_BREAK
  | AFTERNOON_TRADING
  | CALL_AUCTION_CLOSE
  | AFTER_HOURS
  | CLOSED
deriving DecidableEq

/-- Wall-clock inputs of the session functions: the trading-day test
result and the local hour/minute. -/
structure SessionClock where
  tradingDay : Bool
  hours : ℕ
  minutes : ℕ
deriving DecidableEq

/-- Source `getBoardType(code)`: strips a case-insensitive `sh`/`sz`/`bj`
tag and classifies by the leading digits. -/
def getBoardType (code : String) : BoardType :=
  let l := strLower code
  let c := if strStartsWith l "sh" ∨ strStartsWith l "sz" ∨ strStartsWith l "bj" then code.drop 2 else code
  if strStartsWith c "60" then .MAIN_SH
  else if strStartsWith c "00" then .MAIN_SZ
  else if strStartsWith c "30" then .GEM
  else if strStartsWith c "68" then .STAR
  else if strStartsWith c "8" ∨ strStartsWith c "4" then .BSE
  else if strStartsWith c "900" then .B_SHARE_SH
  else if strStartsWith c "200" then .B_SHARE_SZ
  else .UNKNOWN

/-- Source `getMinTradeUnit(code)`. -/
def getMinTradeUnit (code : String) : ℚ :=
  match getBoardType code with
  | .STAR => 200
  | _ => 100

/-- Result of `validateQuantity`. -/
structure QuantityCheck where
  valid : Bool
  adjustedQuantity : ℚ
deriving DecidableEq

/-- Source `validateQuantity(code, quantity, isSell)`: lot-size validation
with the STAR-board special case and odd-lot sells. -/
def validateQuantity (code : String) (quantity : ℚ) (isSell : Bool) : QuantityCheck :=
  let boardType := getBoardType code
  let minUnit := getMinTradeUnit code
  if boardType = .STAR then
    if quantity < 200 then
      if isSell then ⟨true, quantity⟩
      else ⟨false, 200⟩
    else ⟨true, quantity⟩
  else
    if quantity < minUnit then
      if isSell then ⟨true, quantity⟩
      else ⟨false, minUnit⟩
    else if jsMod quantity 100 ≠ 0 ∧ ¬ isSell then
      ⟨false, jsFloor (quantity / 100) * 100⟩
    else ⟨true, quantity⟩

/-- Source `adjustPrice(price)`: rounding to the cent. -/
def adjustPrice (price : ℚ) : ℚ :=
  jsRound2 price

/-- Source `getTradingSession(date)`. -/
def getTradingSession (clock : SessionClock) : TradingSession :=
  if ¬ clock.tradingDay then .CLOSED
  else
    let time := clock.hours * 100 + clock.minutes
    if time < 915 then .PRE_MARKET
    else if 915 ≤ time ∧ time < 925 then .CALL_AUCTION_OPEN
    else if 925 ≤ time ∧ time < 930 then .CALL_AUCTION_MATCH
    else if 930 ≤ time ∧ time < 1130 then .MORNING_TRADING
    else if 1130 ≤ time ∧ time < 1300 then .LUNCH_BREAK
    else if 1300 ≤ time ∧ time < 1457 then .AFTERNOON_TRADING
    else if 1457 ≤ time ∧ time < 1500 then .CALL_AUCTION_CLOSE
    else .AFTER_HOURS

/-- Source `canPlaceOrder(date)` (only the boolean part matters to the
engine). -/
def canPlaceOrder (clock : SessionClock) : Bool :=
  match getTradingSession clock with
  | .CALL_AUCTION_OPEN => true
  | .CALL_AUCTION_MATCH => false
  | .MORNING_TRADING => true
  | .AFTERNOON_TRADING => true
  | .CALL_AUCTION_CLOSE => true
  | .LUNCH_BREAK => true
  | _ => false

/-- Source `getStockStatus(name)`: classification from the display name
(after upper-casing). -/
def getStockStatus (name : String) : StockStatus :=
  if name = "" then .NORMAL
  else
    let up := strUpper name
    if strIncludes up "*ST" then .ST_STAR
    else if strIncludes up "ST" then .ST
    else if strIncludes up "退" then .DELISTING
    else if strStartsWith up "N" then .NEW_LISTING
    else .NORMAL

/-- Quote snapshot seen by the engine (name and limit prices included). -/
structure EQuote where
  price : ℚ
  name : String := ""
  ask1 : Option ℚ := none
  bid1 : Option ℚ := none
  limitUp : ℚ := 0
  limitDown : ℚ := 0
deriving DecidableEq

/-- Result of `checkBuyable`. -/
structure BuyCheck where
  canBuy : Bool
  reasons : List String
  status : StockStatus
deriving DecidableEq

/-- Source `checkBuyable(code, name, quote)` with the wall clock passed
explicitly for the embedded `canPlaceOrder()` call. -/
def checkBuyable (code : String) (name : String) (quote : EQuote)
    (clock : SessionClock) : BuyCheck :=
  let status := getStockStatus name
  let r1 : List String × Bool :=
    if status = .ST_STAR then (["*ST股票，退市风险高"], false)
    else if status = .ST then (["ST股票，风险较高"], true)
    else if status = .DELISTING then (["退市整理期股票，禁止买入"], false)
    else ([], true)
  let r2 : List String × Bool :=
    let up := if quote.price ≥ quote.limitUp * (998/1000) then
        (r1.1 ++ ["股价接近或达到涨停，买入困难"], false) else r1
    if quote.price ≤ quote.limitDown * (1002/1000) then
      (up.1 ++ ["股价接近或达到跌停，不建议买入"], up.2) else up
  let r3 : List String × Bool :=
    if ¬ canPlaceOrder clock then (r2.1 ++ ["当前非交易时间"], false) else r2
  let boardType := getBoardType code
  let reasons :=
    if boardType = .STAR then r3.1 ++ ["科创板需要开通权限（50万+2年经验）"]
    else if boardType = .GEM then r3.1 ++ ["创业板需要开通权限"]
    else if boardType = .BSE then r3.1 ++ ["北交所需要开通权限"]
    else r3.1
  ⟨r3.2, reasons, status⟩

/-- Result of `checkSellable`. -/
structure SellCheck where
  canSell : Bool
  reasons : List String
  availableShares : ℚ
deriving DecidableEq

/-- Source `checkSellable(code, position, quote)` with the wall clock
passed explicitly. -/
def checkSellable (position : Option Broker.Position) (quote : EQuote)
    (clock : SessionClock) : SellCheck :=
  let avail0 := (position.map Broker.Position.availableShares).getD 0
  let r1 : List String × Bool × ℚ :=
    match position with
    | none => (["无可卖持仓（T+1限制）"], false, 0)
    | some p =>
      if p.availableShares ≤ 0 then (["无可卖持仓（T+1限制）"], false, 0)
      else ([], true, avail0)
  let r2 : List String × Bool × ℚ :=
    if quote.price ≤ quote.limitDown * (1002/1000) then
      (r1.1 ++ ["股价接近或达到跌停，卖出困难"], r1.2.1, r1.2.2) else r1
  let r3 : List String × Bool × ℚ :=
    if ¬ canPlaceOrder clock then (r2.1 ++ ["当前非交易时间"], false, r2.2.2) else r2
  ⟨r3.2.1, r3.1, r3.2.2⟩

/-- Result of `calculateFees`. -/
structure Fees where
  commission : ℚ
  stampTax : ℚ
  transferFee : ℚ
  totalFee : ℚ
deriving DecidableEq

/-- Source `calculateFees(side, amount, config)` with the default fee
configuration (commission 3bp floored at 5, sell-side stamp tax 10bp,
transfer fee 0.1bp), each component rounded to the cent. -/
def calculateFees (side : Broker.OrderSide) (amount : ℚ) : Fees :=
  let commission0 := max (amount * (3/10000)) 5
  let stampTax0 := if side = .SELL then amount * (1/1000) else 0
  let transferFee0 := amount * (1/100000)
  let totalFee0 := commission0 + stampTax0 + transferFee0
  ⟨jsRound2 commission0, jsRound2 stampTax0, jsRound2 transferFee0, jsRound2 totalFee0⟩

end AShare

namespace Engine

open Broker AShare CircuitBreaker

/-- Signal kinds produced by a strategy (`signal.type` strings). -/
inductive SignalType where
  | BUY
  | SELL
  | HOLD
deriving DecidableEq

/-- Strategy signal object (external collaborator output). -/
structure Signal where
  stype : SignalType
  shares : Option ℚ := none
  entryPrice : Option ℚ := none
  exitPrice : Option ℚ := none
  stopPrice : Option ℚ := none
deriving DecidableEq

/-- Engine risk-control configuration fields used by the tick path. -/
structure EConfig where
  maxPositionRatio : ℚ := 8/10
  maxSingleRatio : ℚ := 3/10
  stopLossEnabled : Bool := true
deriving DecidableEq

/-- Engine risk status (`this.riskStatus`); the weekly and monthly PnL
properties are never written by the engine and hence may be absent. -/
structure RiskStatus where
  tradingEnabled : Bool := true
  dailyPnL : ℚ := 0
  weeklyPnL : Option ℚ := none
  monthlyPnL : Option ℚ := none
  currentDrawdown : ℚ := 0
deriving DecidableEq

/-- Observable event of one tick: an order submission to the broker,
tagged with its origin (signal pipeline or stop-loss check) and the
submission outcome. -/
inductive TraceEv where
  | signalSubmit (o : Broker.OrderReq) (success : Bool)
  | stopSubmit (o : Broker.OrderReq) (success : Bool)
deriving DecidableEq

/-- Discriminator of stop-loss-originated events. -/
def TraceEv.isStopEv : TraceEv → Bool
  | .stopSubmit _ _ => true
  | _ => false

/-- Discriminator of signal-originated events. -/
def TraceEv.isSignalEv : TraceEv → Bool
  | .signalSubmit _ _ => true
  | _ => false

/-- Claim predicate (the stop-loss-priority reading): in a tick trace,
every stop-loss submission occurs strictly before every signal-pipeline
submission. -/
def stopsPrecedeSignals (tr : List TraceEv) : Prop :=
  ∀ i j (hi : i < tr.length) (hj : j < tr.length),
    (tr.get ⟨i, hi⟩).isStopEv → (tr.get ⟨j, hj⟩).isSignalEv → i < j

/-- Source `executeBuy` steps 1-7: the admission-control gate that shrinks
the requested quantity against the single-trade cap, the total-position
cap and available cash, validates the lot size and builds the limit order;
`none` when the final quantity is below the minimum trade unit. -/
def executeBuyOrder (cfg : EConfig) (symbol : String) (sig : Signal)
    (quote : EQuote) (account : Broker.Account)
    (circuit : Option CheckResult) : Option Broker.OrderReq :=
  let price := jsOrQ sig.entryPrice (jsOrQ quote.ask1 quote.price)
  let shares0 := sig.shares.getD 0
  let circuitPositionLimit := (circuit.map CheckResult.positionLimit).getD cfg.maxPositionRatio
  let circuitSingleLimit := (circuit.map CheckResult.singleTradeLimit).getD cfg.maxSingleRatio
  let singleLimit := min cfg.maxSingleRatio circuitSingleLimit
  let maxAmount := account.totalAssets * singleLimit
  let maxShares := jsFloor (maxAmount / price / 100) * 100
  let shares1 := min shares0 maxShares
  let positionLimit := min cfg.maxPositionRatio circuitPositionLimit
  let maxPositionValue := account.totalAssets * positionLimit
  let availableForBuy := maxPositionValue - account.marketValue
  let maxSharesByPosition := jsFloor (availableForBuy / price / 100) * 100
  let shares2 := min shares1 maxSharesByPosition
  let fees := calculateFees .BUY (shares2 * price)
  let requiredCash := shares2 * price + fees.totalFee
  let shares3 :=
    if requiredCash > account.available then
      jsFloor ((account.available - 50) / price / 100) * 100
    else shares2
  let qc := validateQuantity symbol shares3 false
  let shares4 := if qc.valid then shares3 else qc.adjustedQuantity
  let minUnit := getMinTradeUnit symbol
  if shares4 < minUnit then none
  else some
    { code := symbol, side := .BUY, type := some .LIMIT,
      price := some (adjustPrice price), quantity := shares4,
      stopPrice := sig.stopPrice }

/-- Source `executeBuy` step 8 plus the submission bookkeeping: submit the
gated order and record the outcome on the breaker's rejection counter. -/
def executeBuyStep (cfg : EConfig) (symbol : String) (sig : Signal)
    (quote : EQuote) (account : Broker.Account) (circuit : Option CheckResult)
    (bst : BState) (cb : CircuitBreaker.State) :
    List TraceEv × BState × CircuitBreaker.State :=
  match executeBuyOrder cfg symbol sig quote account circuit with
  | none => ([], bst, cb)
  | some o =>
    let res := submitOrder bst o
    let cb' := if res.1.success then recordOrderSuccess cb else recordRejection cb
    ([.signalSubmit o res.1.success], res.2, cb')

/-- Source `executeSell`: sells the position's sellable quantity at the
exit price (odd lots allowed on the sell side). -/
def executeSellStep (symbol : String) (sig : Signal) (quote : EQuote)
    (position : Broker.Position) (bst : BState) (cb : CircuitBreaker.State) :
    List TraceEv × BState × CircuitBreaker.State :=
  let price := jsOrQ sig.exitPrice (jsOrQ quote.bid1 quote.price)
  let shares0 := position.availableShares
  let qc := validateQuantity symbol shares0 true
  let shares := qc.adjustedQuantity
  if shares ≤ 0 then ([], bst, cb)
  else
    let o : Broker.OrderReq :=
      { code := symbol, side := .SELL, type := some .LIMIT,
        price := some (adjustPrice price), quantity := shares }
    let res := submitOrder bst o
    let cb' := if res.1.success then recordOrderSuccess cb else recordRejection cb
    ([.signalSubmit o res.1.success], res.2, cb')

/-- Source `handleSignal`: risk flag, circuit-breaker check, session
check, then the buy or sell pipeline with its compliance checks. -/
def handleSignal (cfg : EConfig) (cbCfg : CircuitBreaker.Config)
    (symbol : String) (sig : Signal) (quote : EQuote)
    (account : Broker.Account) (position : Option Broker.Position)
    (risk : RiskStatus) (clock : SessionClock) (nowMs : ℤ)
    (bst : BState) (cb : CircuitBreaker.State) :
    List TraceEv × BState × CircuitBreaker.State :=
  if ¬ risk.tradingEnabled then ([], bst, cb)
  else
    let checked := CircuitBreaker.check cbCfg cb
      { dailyPnL := some risk.dailyPnL
        weeklyPnL := some (jsOrQ risk.weeklyPnL 0)
        monthlyPnL := some (jsOrQ risk.monthlyPnL 0)
        currentDrawdown := some risk.currentDrawdown } nowMs
    let cres := checked.1
    let cb1 := checked.2
    if ¬ cres.canTrade then ([], bst, cb1)
    else if ¬ canPlaceOrder clock then ([], bst, cb1)
    else if sig.stype = .BUY ∧ (position = none ∨ (position.map Broker.Position.shares).getD 0 = 0) then
      let bc := checkBuyable symbol quote.name quote clock
      if ¬ bc.canBuy then ([], bst, cb1)
      else if ¬ cres.canOpenPosition then ([], bst, cb1)
      else executeBuyStep cfg symbol sig quote account (some cres) bst cb1
    else
      match position with
      | some p =>
        if sig.stype = .SELL ∧ p.shares > 0 then
          let sc := checkSellable (some p) quote clock
          if ¬ sc.canSell then ([], bst, cb1)
          else executeSellStep symbol sig quote p bst cb1
        else ([], bst, cb1)
      | none => ([], bst, cb1)

/-- Source `checkStopLoss`: compares the quote price with the strategy's
tracked stop price (a missing or zero stop is falsy and disables the
check) and submits a market sell of the sellable quantity directly to the
broker — no circuit-breaker, session or compliance checks are consulted. -/
def checkStopLossStep (symbol : String) (quote : EQuote)
    (position : Broker.Position) (strategyStop : Option ℚ)
    (bst : BState) : List TraceEv × BState :=
  match strategyStop with
  | none => ([], bst)
  | some sp =>
    if sp = 0 then ([], bst)
    else if quote.price ≤ sp then
      let o : Broker.OrderReq :=
        { code := symbol, side := .SELL, type := some .MARKET,
          quantity := position.availableShares }
      let res := submitOrder bst o
      ([.stopSubmit o res.1.success], res.2)
    else ([], bst)

/-- Source `processSymbol`: history sufficiency, position/account
snapshots, the strategy signal (external input), signal handling, and
finally the stop-loss check. `cached` is the quote cache the broker's
`getAccount` reads. -/
def processSymbol (cfg : EConfig) (cbCfg : CircuitBreaker.Config)
    (symbol : String) (quote : EQuote) (sig : Option Signal)
    (strategyStop : Option ℚ) (risk : RiskStatus) (clock : SessionClock)
    (nowMs : ℤ) (histLen : ℕ) (cached : String → Option Broker.Quote)
    (bst : BState) (cb : CircuitBreaker.State) :
    List TraceEv × BState × CircuitBreaker.State :=
  if histLen < 20 then ([], bst, cb)
  else
    let position := lookupPos bst symbol
    let acc := Broker.getAccount bst cached
    let account := acc.1
    let bst1 := acc.2
    let step1 :=
      match sig with
      | some s => handleSignal cfg cbCfg symbol s quote account position risk clock nowMs bst1 cb
      | none => ([], bst1, cb)
    let step2 :=
      if cfg.stopLossEnabled ∧ (match position with | some p => decide (p.shares > 0) | none => false) = true then
        match position with
        | some p => checkStopLossStep symbol quote p strategyStop step1.2.1
        | none => ([], step1.2.1)
      else ([], step1.2.1)
    (step1.1 ++ step2.1, step2.2, step1.2.2)

end Engine

namespace ErrHandler

/-- Error kinds (source `ErrorType`). -/
inductive ErrorType where
  | NETWORK_TIMEOUT
  | NETWORK_ERROR
  | CONNECTION_LOST
  | DATA_PARSE_ERROR
  | DATA_INVALID
  | DATA_MISSING
  | DATA_STALE
  | ORDER_REJECTED
  | ORDER_TIMEOUT
  | ORDER_FAILED
  | INSUFFICIENT_FUNDS
  | INSUFFICIENT_SHARES
  | PRICE_LIMIT_HIT
  | BROKER_DISCONNECTED
  | BROKER_ERROR
  | BROKER_BUSY
  | BROKER_MAINTENANCE
  | QUOTE_ERROR
  | QUOTE_DELAYED
  | QUOTE_UNAVAILABLE
  | STRATEGY_ERROR
  | SIGNAL_INVALID
  | SYSTEM_ERROR
  | MEMORY_ERROR
  | DISK_ERROR
  | UNKNOWN
deriving DecidableEq

/-- Severity levels (source `ErrorSeverity`). -/
inductive Severity where
  | LOW
  | MEDIUM
  | HIGH
  | CRITICAL
  | FATAL
deriving DecidableEq

/-- Recovery strategies (source `RecoveryStrategy`). -/
inductive Strategy where
  | IGNORE
  | RETRY
  | RETRY_BACKOFF
  | SKIP
  | FALLBACK
  | PAUSE
  | STOP
  | ALERT
deriving DecidableEq

/-- One entry of the static strategy table. -/
structure StratCfg where
  strategy : Strategy
  maxRetries : Option ℕ := none
  severity : Severity
deriving DecidableEq

/-- Source `_initRecoveryStrategies()`: the static error-kind → recovery
mapping (the `|| UNKNOWN` fallback of `handle` is subsumed by totality). -/
def recoveryStrategies : ErrorType → StratCfg
  | .NETWORK_TIMEOUT => ⟨.RETRY_BACKOFF, some 3, .MEDIUM⟩
  | .NETWORK_ERROR => ⟨.RETRY_BACKOFF, some 3, .MEDIUM⟩
  | .CONNECTION_LOST => ⟨.RETRY_BACKOFF, some 5, .HIGH⟩
  | .DATA_PARSE_ERROR => ⟨.SKIP, none, .MEDIUM⟩
  | .DATA_INVALID => ⟨.SKIP, none, .MEDIUM⟩
  | .DATA_MISSING => ⟨.FALLBACK, none, .MEDIUM⟩
  | .DATA_STALE => ⟨.FALLBACK, none, .LOW⟩
  | .ORDER_REJECTED => ⟨.SKIP, none, .MEDIUM⟩
  | .ORDER_TIMEOUT => ⟨.RETRY, some 2, .HIGH⟩
  | .ORDER_FAILED => ⟨.SKIP, none, .HIGH⟩
  | .INSUFFICIENT_FUNDS => ⟨.SKIP, none, .MEDIUM⟩
  | .INSUFFICIENT_SHARES => ⟨.SKIP, none, .MEDIUM⟩
  | .PRICE_LIMIT_HIT => ⟨.SKIP, none, .LOW⟩
  | .BROKER_DISCONNECTED => ⟨.RETRY_BACKOFF, some 10, .CRITICAL⟩
  | .BROKER_ERROR => ⟨.RETRY, some 3, .HIGH⟩
  | .BROKER_BUSY => ⟨.RETRY_BACKOFF, some 5, .MEDIUM⟩
  | .BROKER_MAINTENANCE => ⟨.PAUSE, none, .HIGH⟩
  | .QUOTE_ERROR => ⟨.FALLBACK, none, .MEDIUM⟩
  | .QUOTE_DELAYED => ⟨.IGNORE, none, .LOW⟩
  | .QUOTE_UNAVAILABLE => ⟨.RETRY_BACKOFF, some 3, .HIGH⟩
  | .STRATEGY_ERROR => ⟨.SKIP, none, .HIGH⟩
  | .SIGNAL_INVALID => ⟨.SKIP, none, .LOW⟩
  | .SYSTEM_ERROR => ⟨.STOP, none, .CRITICAL⟩
  | .MEMORY_ERROR => ⟨.STOP, none, .FATAL⟩
  | .DISK_ERROR => ⟨.ALERT, none, .CRITICAL⟩
  | .UNKNOWN => ⟨.SKIP, none, .HIGH⟩

/-- A typed trading error (source `TradingError`). -/
structure TradingError where
  etype : ErrorType
  severity : Severity := .MEDIUM
  recoverable : Bool := true
  message : String := ""
deriving DecidableEq

/-- Input of `handle`: either an already-typed `TradingError` or an
arbitrary JavaScript error value, of which `_wrapError` only reads the
`message` property (`none` models a value without one, e.g. a thrown
string or `null`). -/
inductive ErrInput where
  | trading (e : TradingError)
  | plain (message : Option String)
deriving DecidableEq

/-- The JavaScript exception `_wrapError` can raise:
`error.message.toLowerCase()` on an undefined `message` is a `TypeError`,
which rejects the promise returned by `handle`. -/
inductive JsErr where
  | typeError
deriving DecidableEq

/-- Source `_wrapError(error, context)`: message-based classification of an
untyped error; throws when the error value has no `message`. -/
def wrapError (message : Option String) : Except JsErr TradingError :=
  match message with
  | none => .error .typeError
  | some m =>
    let lower := strLower m
    let ts : ErrorType × Severity :=
      if strIncludes lower "timeout" then (.NETWORK_TIMEOUT, .MEDIUM)
      else if strIncludes lower "network" ∨ strIncludes lower "econnrefused"
          ∨ strIncludes lower "enotfound" then (.NETWORK_ERROR, .MEDIUM)
      else if strIncludes lower "parse" ∨ strIncludes lower "json" then
        (.DATA_PARSE_ERROR, .MEDIUM)
      else if strIncludes lower "insufficient" ∧ strIncludes lower "fund" then
        (.INSUFFICIENT_FUNDS, .MEDIUM)
      else if strIncludes lower "rejected" then (.ORDER_REJECTED, .MEDIUM)
      else if strIncludes lower "disconnect" then (.BROKER_DISCONNECTED, .CRITICAL)
      else (.UNKNOWN, .MEDIUM)
    .ok ⟨ts.1, ts.2, true, m⟩

/-- Handler configuration (constructor defaults of the source). -/
structure EHConfig where
  maxRetries : ℕ := 3
  retryDelay : ℚ := 1000
  retryBackoffMultiplier : ℚ := 2
  maxRetryDelay : ℚ := 30000
  alertThreshold : ℕ := 5
  alertWindow : ℤ := 300000
  maxHistorySize : ℕ := 1000
deriving DecidableEq

/-- Handler state: per-kind timestamp windows and the bounded history. -/
structure EHState where
  errorCounts : List (ErrorType × List ℤ) := []
  errorHistory : List TradingError := []
deriving DecidableEq

/-- Source `_recordError(error)`: push the timestamp into the per-kind
window, prune entries older than the alert window, and append to the
bounded history. -/
def recordError (cfg : EHConfig) (st : EHState) (err : TradingError) (now : ℤ) : EHState :=
  let old := ((st.errorCounts.find? (fun e => e.1 = err.etype)).map Prod.snd).getD []
  let pruned := (old ++ [now]).dropWhile (fun t => t < now - cfg.alertWindow)
  let counts :=
    if (st.errorCounts.find? (fun e => e.1 = err.etype)).isSome then
      st.errorCounts.map (fun e => if e.1 = err.etype then (e.1, pruned) else e)
    else st.errorCounts ++ [(err.etype, pruned)]
  let history := st.errorHistory ++ [err]
  { errorCounts := counts
    errorHistory := if history.length > cfg.maxHistorySize then keepLast history cfg.maxHistorySize else history }

/-- Source `_shouldAlert(error)` (evaluated after `_recordError`). -/
def shouldAlert (cfg : EHConfig) (st : EHState) (err : TradingError) : Bool :=
  let counts := ((st.errorCounts.find? (fun e => e.1 = err.etype)).map Prod.snd).getD []
  counts.length ≥ cfg.alertThreshold ∨ err.severity = .CRITICAL ∨ err.severity = .FATAL

/-- Structured outcome of `handle`; the `result`/`error` payload fields of
the source objects carry opaque values and are not modelled. `continue`
is rendered as `cont`. -/
structure Outcome where
  action : String
  cont : Bool
  attempts : Option ℕ := none
deriving DecidableEq

/-- Recovery context supplied by the caller: the retryable operation
(`true` = the invocation resolves, `false` = it throws, indexed by the
attempt number) and the fallback result. -/
structure Ctx where
  operation : Option (ℕ → Bool) := none
  fallback : Option Bool := none

/-- Loop of `_retryWithDelay`: fixed delay before each attempt; the waits
performed by `_sleep` are returned for specification purposes. The
`none` outcome models the `undefined` the source returns when the loop
body never runs (`maxRetries = 0`). -/
def retryDelayGo (f : ℕ → Bool) (delay : ℚ) : ℕ → ℕ → Option Outcome × List ℚ
  | 0, _ => (none, [])
  | n + 1, attempt =>
    let rest :=
      if f attempt then (some ⟨"retry_success", true, some attempt⟩, [])
      else if n = 0 then (some ⟨"retry_failed", false, some attempt⟩, [])
      else retryDelayGo f delay n (attempt + 1)
    (rest.1, delay :: rest.2)

/-- Source `_retryWithDelay(operation, maxRetries, delay)`. -/
def retryWithDelay (op : Option (ℕ → Bool)) (maxRetries : ℕ) (delay : ℚ) :
    Option Outcome × List ℚ :=
  match op with
  | none => (some ⟨"no_operation", false, none⟩, [])
  | some f => retryDelayGo f delay maxRetries 1

/-- Loop of `_retryWithBackoff`: the delay grows by the configured
multiplier after each failed non-final attempt, capped at
`maxRetryDelay`. -/
def retryBackoffGo (cfg : EHConfig) (f : ℕ → Bool) : ℕ → ℕ → ℚ → Option Outcome × List ℚ
  | 0, _, _ => (none, [])
  | n + 1, attempt, delay =>
    let rest :=
      if f attempt then (some ⟨"retry_success", true, some attempt⟩, [])
      else if n = 0 then (some ⟨"retry_failed", false, some attempt⟩, [])
      else retryBackoffGo cfg f n (attempt + 1)
        (min (delay * cfg.retryBackoffMultiplier) cfg.maxRetryDelay)
    (rest.1, delay :: rest.2)

/-- Source `_retryWithBackoff(operation, maxRetries)`. -/
def retryWithBackoff (cfg : EHConfig) (op : Option (ℕ → Bool)) (maxRetries : ℕ) :
    Option Outcome × List ℚ :=
  match op with
  | none => (some ⟨"no_operation", false, none⟩, [])
  | some f => retryBackoffGo cfg f maxRetries 1 cfg.retryDelay

/-- Source `_executeRecovery(error, strategyConfig, context)`. The `Pause`,
`Stop` and `Alert` branches additionally emit events, which have no
bearing on the returned outcome. -/
def executeRecovery (cfg : EHConfig) (sc : StratCfg) (ctx : Ctx) : Option Outcome :=
  match sc.strategy with
  | .IGNORE => some ⟨"ignored", true, none⟩
  | .RETRY => (retryWithDelay ctx.operation (sc.maxRetries.getD cfg.maxRetries) cfg.retryDelay).1
  | .RETRY_BACKOFF => (retryWithBackoff cfg ctx.operation (sc.maxRetries.getD cfg.maxRetries)).1
  | .SKIP => some ⟨"skipped", true, none⟩
  | .FALLBACK =>
    match ctx.fallback with
    | some true => some ⟨"fallback", true, none⟩
    | some false => some ⟨"fallback_failed", false, none⟩
    | none => some ⟨"no_fallback", false, none⟩
  | .PAUSE => some ⟨"paused", false, none⟩
  | .STOP => some ⟨"stopped", false, none⟩
  | .ALERT => some ⟨"alerted", true, none⟩

/-- Source `handle(error, context)`: normalize to a `TradingError` (which
can throw for message-less inputs), record and log it, evaluate the alert
condition, then execute the mapped recovery strategy. The `Option` in the
result models that the source can resolve with `undefined` instead of an
outcome object when a retry loop body never runs. -/
def handle (cfg : EHConfig) (st : EHState) (now : ℤ) (inp : ErrInput) (ctx : Ctx) :
    Except JsErr (Option Outcome × EHState) :=
  let wrapped : Except JsErr TradingError :=
    match inp with
    | .trading e => .ok e
    | .plain m => wrapError m
  match wrapped with
  | .error e => .error e
  | .ok terr =>
    let sc := recoveryStrategies terr.etype
    let st' := recordError cfg st terr now
    let result := executeRecovery cfg sc ctx
    .ok (result, st')

/-- Claim predicate: the input value carries a string `message` (every
`Error` instance does; thrown strings, `null` etc. need not). -/
def hasMessage : ErrInput → Prop
  | .trading _ => True
  | .plain m => m.isSome

end ErrHandler

section SampleInputs

/-- Metrics with a 9% daily loss and a 1% weekly profit. -/
def m1Metrics : CircuitBreaker.Metrics :=
  { dailyPnL := some (-(9/100)), weeklyPnL := some (1/100) }

/-- Metrics with a 9% daily loss and flat weekly/monthly PnL. -/
def m2Metrics : CircuitBreaker.Metrics :=
  { dailyPnL := some (-(9/100)) }

/-- A HALTED breaker state whose cooldown expires at time 5. -/
def c3SampleState : CircuitBreaker.State :=
  { currentLevel := .HALTED
    lastTriggeredAt := some 0
    lastTriggeredReason := some .DAILY_LOSS
    triggerHistory := []
    cooldownEndTime := some 5
    consecutiveLosses := 0
    consecutiveRejections := 0
    hourlyTradeCount := 0
    lastHourReset := 0 }

/-- Buy request: 500 shares at 100 (reserves 50015 with the 3bp fee). -/
def c2OrderA : Broker.OrderReq :=
  { code := "600000", side := .BUY, type := some .LIMIT, price := some 100, quantity := 500 }

/-- Broker state right after one submission of `c2OrderA` on a fresh
100000-cash account. -/
def c2State : Broker.BState :=
  Broker.runOps (Broker.initBroker 100000) [.submit c2OrderA]

/-- Buy request with a negative quantity, which `validateOrder` accepts
(`-100 % 100` is `-0` in JavaScript). -/
def c4NegOrder : Broker.OrderReq :=
  { code := "600000", side := .BUY, type := some .LIMIT, price := some 10, quantity := -100 }

/-- Broker state after submitting and filling the negative-quantity buy. -/
def c4State : Broker.BState :=
  Broker.runOps (Broker.initBroker 100000) [.submit c4NegOrder, .execute 0 none]

/-- Scenario B signal: buy 1000 shares at entry price 50. -/
def c8Signal : Engine.Signal :=
  { stype := .BUY, shares := some 1000, entryPrice := some 50 }

/-- Scenario B quote. -/
def c8Quote : AShare.EQuote :=
  { price := 50, name := "平安银行", limitUp := 55, limitDown := 45 }

/-- Scenario B account: 100000 total assets, nothing frozen or held. -/
def c8Account : Broker.Account := ⟨100000, 0, 100000, 100000, 0⟩

/-- Scenario B circuit status: NORMAL caps (position 80%, single trade
30%). -/
def c8Circuit : CircuitBreaker.CheckResult := ⟨.NORMAL, [], true, true, 8/10, 3/10⟩

/-- The order scenario B is expected to submit. -/
def c8Order : Broker.OrderReq :=
  { code := "600000", side := .BUY, type := some .LIMIT, price := some 50, quantity := 600 }

/-- Broker state with a submitted 100-share buy limit order at 10. -/
def c10Submitted : Broker.BState :=
  (Broker.submitOrder (Broker.initBroker 100000)
    { code := "600000", side := .BUY, type := some .LIMIT, price := some 10, quantity := 100 }).2

/-- The same order filled against a quote whose ask is 12: the buy fills
above its limit price. -/
def c10Filled : Broker.BState :=
  Broker.simulateExecution c10Submitted 0 (some ⟨11, some 12, some 9⟩)

/-- The order stored by the `c10Submitted` submission (frozen amount
10 × 100 × 1.0003 = 1000.3). -/
def c9Ord : Broker.Order :=
  ⟨0, "600000", .BUY, .LIMIT, some 10, 100, .SUBMITTED, 0, 0, some (10003/10)⟩

/-- The quote used to fill `c10Submitted`. -/
def c9Quote : Broker.Quote := ⟨11, some 12, some 9⟩

/-- A broker state holding 1000 fully sellable shares of 600000 on a
100000-cash account. -/
def c5Broker : Broker.BState :=
  { Broker.initBroker 100000 with
    positions := [{ code := "600000", shares := 1000, availableShares := 1000,
                    cost := 10000, avgPrice := 10 }] }

/-- Tick quote for the stop-loss ordering scenario: price 8.5, bid 8.4. -/
def c5Quote : AShare.EQuote :=
  { price := 17/2, name := "平安银行", bid1 := some (42/5), limitUp := 11, limitDown := 7 }

/-- The strategy emits a SELL signal at exit price 9.5 on the same tick
the stop (9) is breached. -/
def c5Signal : Engine.Signal := { stype := .SELL, exitPrice := some (19/2) }

/-- Morning continuous-trading clock on a trading day. -/
def c5Clock : AShare.SessionClock := ⟨true, 10, 0⟩

/-- The trace of the stop-loss ordering scenario. -/
def c5Trace : List Engine.TraceEv :=
  (Engine.processSymbol {} CircuitBreaker.defaultConfig "600000" c5Quote (some c5Signal)
    (some 9) {} c5Clock 0 30 (fun _ => none) c5Broker (CircuitBreaker.initState 0)).1

/-- The sell limit order the signal pipeline submits in the scenario. -/
def c5SignalOrder : Broker.OrderReq :=
  { code := "600000", side := .SELL, type := some .LIMIT, price := some (19/2), quantity := 1000 }

/-- The market sell the stop-loss check submits in the scenario. -/
def c5StopOrder : Broker.OrderReq :=
  { code := "600000", side := .SELL, type := some .MARKET, quantity := 1000 }

end SampleInputs

/-- C1: with the default thresholds and a NORMAL breaker, a 9% daily loss
alone implies HALTED for the daily-loss signal, and `check` does escalate
to HALTED (with `canTrade` false) when the weekly and monthly PnL are
flat; but the same 9% daily loss combined with a 1% weekly profit leaves
the level at NORMAL, because the profit guard of `check` skips all three
loss checks whenever any one of the three PnL values is positive. This
exhibits the code bug behind the claim: a positive weekly PnL suppresses
the daily-loss trigger, so the level after `check()` is not the maximum
level independently implied by each signal. -/
theorem check_weekly_profit_suppresses_daily_loss :
    (CircuitBreaker.check CircuitBreaker.defaultConfig (CircuitBreaker.initState 0) m1Metrics 0).1.level = .NORMAL ∧
    CircuitBreaker.getLevel (9/100) CircuitBreaker.defaultConfig.dailyLoss = .HALTED ∧
    (CircuitBreaker.check CircuitBreaker.defaultConfig (CircuitBreaker.initState 0) m2Metrics 0).1.level = .HALTED ∧
    (CircuitBreaker.check CircuitBreaker.defaultConfig (CircuitBreaker.initState 0) m2Metrics 0).1.canTrade = false := by
  refine ⟨by decide, by decide, by decide, by decide⟩

/-- C2 counterexample: after one accepted buy (500 shares at 100, which
freezes 50015), the stored `available` field still reads 100000 while
`cash - frozenCash` is 49985; a second identical buy is then validated
against the stale `available` and accepted even though its 50015 cash
requirement exceeds `cash - frozenCash`. So the `available` value used by
`validateOrder` does not equal `cash - frozenCash` at the moment the
order is validated. -/
theorem stale_available_admits_second_buy :
    c2State.account.available = 100000 ∧
    c2State.account.cash - c2State.account.frozenCash = 49985 ∧
    c2State.account.available ≠ c2State.account.cash - c2State.account.frozenCash ∧
    Broker.validateOrder c2State c2OrderA = true := by
  refine ⟨by decide, by decide, by decide, by decide⟩

/-- C2 amended: the invariant `available = cash - frozenCash` holds on
every account snapshot returned by `getAccount`, after any operation
sequence from a fresh broker — `getAccount` recomputes `available` from
`cash` and `frozenCash` and leaves both unchanged. (The stored field that
`validateOrder` reads is only synchronized by `getAccount`, as the
counterexample shows.) -/
theorem getAccount_available_invariant (c : ℚ) (ops : List Broker.BOp)
    (quotes : String → Option Broker.Quote) :
    (Broker.getAccount (Broker.runOps (Broker.initBroker c) ops) quotes).1.available =
      (Broker.getAccount (Broker.runOps (Broker.initBroker c) ops) quotes).1.cash -
      (Broker.getAccount (Broker.runOps (Broker.initBroker c) ops) quotes).1.frozenCash := rfl

/-- C6 counterexample: `handle` called with an error value that has no
`message` property rejects with the `TypeError` raised inside
`_wrapError` (`error.message.toLowerCase()`), so `handle` does not return
a structured outcome for every error input. -/
theorem handle_throws_on_messageless_input :
    ErrHandler.handle {} {} 0 (.plain none) ⟨none, none⟩ =
      Except.error ErrHandler.JsErr.typeError := rfl

/-- C8: scenario B — a buy signal of 1000 shares at price 50 on a
100000-total-asset account with the 30% single-trade cap is shrunk by the
gate to floor(30000/50/100)·100 = 600 shares, and the adjusted order is
accepted by the broker rather than the signal being rejected. -/
theorem scenario_b_shrinks_to_600 :
    Engine.executeBuyOrder {} "600000" c8Signal c8Quote c8Account (some c8Circuit) =
      some c8Order ∧
    c8Order.quantity = 600 ∧
    (Broker.submitOrder (Broker.initBroker 100000) c8Order).1.success = true := by
  refine ⟨by decide, rfl, by decide⟩

/-- Helper: the observable level/cooldown behaviour of one sweep (the
hourly-counter reset of the same interval body touches neither field). -/
theorem sweepTick_level_cooldown (cfg : CircuitBreaker.Config)
    (st : CircuitBreaker.State) (now : ℤ) :
    ((CircuitBreaker.sweepTick cfg st now).currentLevel,
     (CircuitBreaker.sweepTick cfg st now).cooldownEndTime) =
      (match st.cooldownEndTime with
       | some t =>
         if t ≤ now then
           (match st.currentLevel with
            | .NORMAL => (st.currentLevel, st.cooldownEndTime)
            | lvl =>
              (CircuitBreaker.stepDown lvl,
               if CircuitBreaker.stepDown lvl = CircuitBreaker.Level.NORMAL then none
               else some (now + cfg.cooldownPeriods (CircuitBreaker.stepDown lvl))))
         else (st.currentLevel, st.cooldownEndTime)
       | none => (st.currentLevel, st.cooldownEndTime)) := by
  unfold CircuitBreaker.sweepTick CircuitBreaker.autoRecover
  by_cases hr : now - st.lastHourReset > 3600000 <;>
    simp only [hr, if_true, if_false] <;>
    rcases hc : st.cooldownEndTime with _ | t <;>
    rcases hl : st.currentLevel <;>
    simp [hc, hl, CircuitBreaker.stepDown] <;>
    by_cases hle : t ≤ now <;>
    simp [hle] <;>
    exact ⟨hl, hc⟩

/-- C3: a sweep de-escalates only when the wall clock has reached the
stamped `cooldownEndTime`; when it fires it moves the level down by
exactly one step of the order HALTED, SUSPENDED, RESTRICTED, WARNING,
NORMAL (never skipping a level, never firing before expiry), and stamps a
fresh cooldown for the new level unless the new level is NORMAL, in which
case the cooldown is cleared. -/
theorem sweep_deescalates_one_level (cfg : CircuitBreaker.Config)
    (st : CircuitBreaker.State) (now : ℤ)
    (h : (CircuitBreaker.sweepTick cfg st now).currentLevel ≠ st.currentLevel) :
    (∃ t, st.cooldownEndTime = some t ∧ t ≤ now) ∧
    (CircuitBreaker.sweepTick cfg st now).currentLevel = CircuitBreaker.stepDown st.currentLevel ∧
    CircuitBreaker.levelOrder st.currentLevel =
      CircuitBreaker.levelOrder (CircuitBreaker.stepDown st.currentLevel) + 1 ∧
    (CircuitBreaker.sweepTick cfg st now).cooldownEndTime =
      (if CircuitBreaker.stepDown st.currentLevel = CircuitBreaker.Level.NORMAL then none
       else some (now + cfg.cooldownPeriods (CircuitBreaker.stepDown st.currentLevel))) := by
  have key := sweepTick_level_cooldown cfg st now
  rcases hc : st.cooldownEndTime with _ | t
  · rw [hc] at key
    simp only [Prod.mk.injEq] at key
    exact absurd key.1 h
  · rw [hc] at key
    by_cases hle : t ≤ now
    · simp only [hle, if_true] at key
      rcases hl : st.currentLevel <;> rw [hl] at key <;>
        simp only [Prod.mk.injEq] at key
      · exact absurd (key.1.trans hl.symm) h
      all_goals
        exact ⟨⟨t, rfl, hle⟩, key.1, by decide, key.2⟩
    · simp only [hle, if_false, Prod.mk.injEq] at key
      exact absurd key.1 h

/-- Witness for C3: a HALTED state whose cooldown (5) has expired at time
10 de-escalates to SUSPENDED with a fresh SUSPENDED cooldown. -/
theorem sweep_deescalates_one_level_witness :
    (CircuitBreaker.sweepTick CircuitBreaker.defaultConfig c3SampleState 10).currentLevel ≠
      c3SampleState.currentLevel ∧
    ((∃ t, c3SampleState.cooldownEndTime = some t ∧ t ≤ 10) ∧
     (CircuitBreaker.sweepTick CircuitBreaker.defaultConfig c3SampleState 10).currentLevel =
       CircuitBreaker.stepDown c3SampleState.currentLevel ∧
     CircuitBreaker.levelOrder c3SampleState.currentLevel =
       CircuitBreaker.levelOrder (CircuitBreaker.stepDown c3SampleState.currentLevel) + 1 ∧
     (CircuitBreaker.sweepTick CircuitBreaker.defaultConfig c3SampleState 10).cooldownEndTime =
       (if CircuitBreaker.stepDown c3SampleState.currentLevel = CircuitBreaker.Level.NORMAL then none
        else some (10 + CircuitBreaker.defaultConfig.cooldownPeriods
          (CircuitBreaker.stepDown c3SampleState.currentLevel)))) :=
  ⟨by decide,
   sweep_deescalates_one_level CircuitBreaker.defaultConfig c3SampleState 10 (by decide)⟩

/-- C10: with a quote available, the simulated fill price of a buy is
`max(limit price, ask1-or-quote price)` and of a sell is
`min(limit price, bid1-or-quote price)`; the fill is never more favorable
than the opposing best quote, and a concrete buy limit order at 10 fills
at 12 — strictly above its limit — when the ask is 12. -/
theorem fill_price_clamped_against_quote (p : ℚ) (qu : Broker.Quote) :
    Broker.execPrice .BUY (some p) (some qu) = some (max p (jsOrQ qu.ask1 qu.price)) ∧
    Broker.execPrice .SELL (some p) (some qu) = some (min p (jsOrQ qu.bid1 qu.price)) ∧
    jsOrQ qu.ask1 qu.price ≤ (Broker.execPrice .BUY (some p) (some qu)).getD 0 ∧
    (Broker.execPrice .SELL (some p) (some qu)).getD 0 ≤ jsOrQ qu.bid1 qu.price ∧
    ((Broker.lookupOrder c10Filled 0).map Broker.Order.avgPrice = some 12 ∧
     (Broker.lookupOrder c10Submitted 0).map Broker.Order.price = some (some 10) ∧
     (10 : ℚ) < 12) := by
  refine ⟨rfl, rfl, ?_, ?_, by decide, by decide, by decide⟩
  · simp [Broker.execPrice]
  · simp [Broker.execPrice]

/-- Helper: an element of a keyed position update is an old element or the
image of an old element. -/
theorem mem_setPos {ps : List Broker.Position} {code : String}
    {f : Broker.Position → Broker.Position} {x : Broker.Position}
    (hx : x ∈ Broker.setPos ps code f) :
    x ∈ ps ∨ ∃ p ∈ ps, p.code = code ∧ x = f p := by
  rcases List.mem_map.1 hx with ⟨p, hp, hpx⟩
  by_cases h : p.code = code
  · right
    refine ⟨p, hp, h, ?_⟩
    rw [← hpx]
    simp [h]
  · left
    rw [← hpx]
    simpa [h] using hp

/-- Helper: an element of a keyed order update is an old element or the
image of an old element keyed by the updated id. -/
theorem mem_setOrder {os : List Broker.Order} {oid : ℕ}
    {f : Broker.Order → Broker.Order} {x : Broker.Order}
    (hx : x ∈ Broker.setOrder os oid f) :
    x ∈ os ∨ ∃ o ∈ os, o.orderId = oid ∧ x = f o := by
  rcases List.mem_map.1 hx with ⟨o, ho, hox⟩
  by_cases h : o.orderId = oid
  · right
    refine ⟨o, ho, h, ?_⟩
    rw [← hox]
    simp [h]
  · left
    rw [← hox]
    simpa [h] using ho

/-- Helper: a successful order lookup yields a stored order with the
looked-up id. -/
theorem lookupOrder_mem {st : Broker.BState} {oid : ℕ} {ord : Broker.Order}
    (h : Broker.lookupOrder st oid = some ord) :
    ord ∈ st.orders ∧ ord.orderId = oid := by
  refine ⟨List.mem_of_find?_eq_some h, ?_⟩
  have := List.find?_some h
  simpa using this

/-- Helper: a successful position lookup yields a stored position with the
looked-up code. -/
theorem lookupPos_mem {st : Broker.BState} {code : String} {pos : Broker.Position}
    (h : Broker.lookupPos st code = some pos) :
    pos ∈ st.positions ∧ pos.code = code := by
  refine ⟨List.mem_of_find?_eq_some h, ?_⟩
  have := List.find?_some h
  simpa using this

/-- Helper: pairwise-distinct order ids make the stored order of an id
unique. -/
theorem pairwise_orderId_unique {l : List Broker.Order}
    (hp : l.Pairwise (fun a b => a.orderId ≠ b.orderId)) :
    ∀ a ∈ l, ∀ b ∈ l, a.orderId = b.orderId → a = b := by
  induction l with
  | nil => simp
  | cons x l ih =>
    rcases List.pairwise_cons.1 hp with ⟨hx, hl⟩
    intro a ha b hb hab
    rcases List.mem_cons.1 ha with ha1 | ha1 <;> rcases List.mem_cons.1 hb with hb1 | hb1
    · rw [ha1, hb1]
    · subst ha1
      exact absurd hab (hx b hb1)
    · subst hb1
      exact absurd hab.symm (hx a ha1)
    · exact ih hl a ha1 b hb1 hab

/-- Helper: looking up an id after a keyed update that preserves ids finds
the image of the previously stored order. -/
theorem find?_setOrder (os : List Broker.Order) (oid : ℕ)
    (f : Broker.Order → Broker.Order) (hf : ∀ o, (f o).orderId = o.orderId) :
    (Broker.setOrder os oid f).find? (fun o => o.orderId = oid) =
      ((os.find? (fun o => o.orderId = oid)).map
        (fun o => if o.orderId = oid then f o else o)) := by
  unfold Broker.setOrder
  induction os with
  | nil => rfl
  | cons a l ih =>
    simp only [List.map_cons, List.find?_cons]
    by_cases ha : a.orderId = oid
    · simp [ha, hf]
    · simp only [ha, hf, if_false, decide_eq_false, Bool.false_eq_true]
      exact ih

/-- Helper: looking up a code after a keyed position update that keeps the
key on matching entries finds the image of the previously stored
position. -/
theorem find?_setPos (ps : List Broker.Position) (code : String)
    (f : Broker.Position → Broker.Position)
    (hf : ∀ p, p.code = code → (f p).code = code) :
    (Broker.setPos ps code f).find? (fun p => p.code = code) =
      ((ps.find? (fun p => p.code = code)).map
        (fun p => if p.code = code then f p else p)) := by
  unfold Broker.setPos
  induction ps with
  | nil => rfl
  | cons a l ih =>
    simp only [List.map_cons, List.find?_cons]
    by_cases ha : a.code = code
    · simp [ha, hf a ha]
    · simp only [ha, if_false, decide_eq_false, Bool.false_eq_true]
      exact ih

/-- Helper: after a constant keyed position update whose value keeps the
key, looking up the key finds the new value (provided the key was
present). -/
theorem lookupPos_setPos_const {st : Broker.BState} {code : String} {pos : Broker.Position}
    (hpos : Broker.lookupPos st code = some pos) (v : Broker.Position) (hv : v.code = code) :
    (Broker.setPos st.positions code (fun _ => v)).find? (fun p => p.code = code) = some v := by
  rw [find?_setPos st.positions code (fun _ => v) (fun _ _ => hv)]
  have hbase : st.positions.find? (fun p => p.code = code) = some pos := hpos
  rw [hbase]
  simp [(lookupPos_mem hpos).2]

/-- Helper: one broker operation preserves the T+1 position invariant and
the non-negativity of stored buy quantities, provided any submitted buy
request has non-negative quantity. -/
theorem c4_step (st : Broker.BState) (op : Broker.BOp)
    (h1 : Broker.posInvariant st) (h2 : Broker.ordersBuyNonneg st)
    (hop : ∀ o, op = Broker.BOp.submit o → o.side = .BUY → 0 ≤ o.quantity) :
    Broker.posInvariant (Broker.applyOp st op) ∧
      Broker.ordersBuyNonneg (Broker.applyOp st op) := by
  cases op with
  | submit o =>
    have hq : o.side = .BUY → 0 ≤ o.quantity := hop o rfl
    simp only [Broker.applyOp, Broker.submitOrder]
    split
    · exact ⟨h1, h2⟩
    · refine ⟨fun p hp => h1 p hp, ?_⟩
      intro ord hord hside
      simp only [List.mem_append, List.mem_singleton] at hord
      rcases hord with hmem | rfl
      · exact h2 ord hmem hside
      · exact hq hside
  | execute oid q =>
    simp only [Broker.applyOp, Broker.simulateExecution]
    rcases hord : Broker.lookupOrder st oid with _ | ord
    · exact ⟨h1, h2⟩
    · have hordm := lookupOrder_mem hord
      dsimp only
      by_cases hstat : ord.status = Broker.OrderStatus.SUBMITTED
      · rw [if_neg (by simpa using hstat)]
        by_cases hside : ord.side = Broker.OrderSide.BUY
        · have hq : 0 ≤ ord.quantity := h2 ord hordm.1 hside
          rw [if_pos trivial, if_pos hside]
          constructor
          · intro p hp
            rcases hpos : Broker.lookupPos st ord.code with _ | pos
            · rw [hpos] at hp
              dsimp only at hp
              simp only [List.mem_append, List.mem_singleton] at hp
              rcases hp with hmem | rfl
              · exact h1 p hmem
              · show (0:ℚ) ≤ 0 + ord.quantity
                simpa using hq
            · rw [hpos] at hp
              dsimp only at hp
              rcases mem_setPos hp with hmem | ⟨p0, _, _, rfl⟩
              · exact h1 p hmem
              · show pos.availableShares ≤ pos.shares + ord.quantity
                exact le_trans (h1 pos (lookupPos_mem hpos).1)
                  (le_add_of_nonneg_right hq)
          · intro o2 ho2 hside2
            rcases mem_setOrder ho2 with hmem | ⟨o0, ho0, _, rfl⟩
            · exact h2 o2 hmem hside2
            · exact h2 o0 ho0 hside2
        · rw [if_pos trivial, if_neg hside]
          constructor
          · intro p hp
            rcases hpos : Broker.lookupPos st ord.code with _ | pos
            · rw [hpos] at hp
              dsimp only at hp
              exact h1 p hp
            · rw [hpos] at hp
              dsimp only at hp
              split at hp
              · exact h1 p (List.mem_of_mem_filter hp)
              · rcases mem_setPos hp with hmem | ⟨p0, _, _, rfl⟩
                · exact h1 p hmem
                · show pos.availableShares - ord.quantity ≤ pos.shares - ord.quantity
                  exact sub_le_sub_right (h1 pos (lookupPos_mem hpos).1) _
          · intro o2 ho2 hside2
            rcases mem_setOrder ho2 with hmem | ⟨o0, ho0, _, rfl⟩
            · exact h2 o2 hmem hside2
            · exact h2 o0 ho0 hside2
      · rw [if_pos (by simpa using hstat)]
        exact ⟨h1, h2⟩
  | cancel oid =>
    simp only [Broker.applyOp, Broker.cancelOrder]
    rcases hord : Broker.lookupOrder st oid with _ | ord
    · exact ⟨h1, h2⟩
    · dsimp only
      split
      · exact ⟨h1, h2⟩
      · refine ⟨fun p hp => h1 p hp, ?_⟩
        intro o2 ho2 hside2
        rcases mem_setOrder ho2 with hmem | ⟨o0, ho0, _, rfl⟩
        · exact h2 o2 hmem hside2
        · exact h2 o0 ho0 hside2
  | settleT1 =>
    refine ⟨?_, fun o ho hs => h2 o ho hs⟩
    intro p hp
    rcases List.mem_map.1 hp with ⟨p0, _, rfl⟩
    exact le_refl p0.shares
  | readAccount quotes =>
    refine ⟨?_, fun o ho hs => h2 o ho hs⟩
    intro p hp
    rcases List.mem_map.1 hp with ⟨p0, hp0, rfl⟩
    rcases hq0 : quotes p0.code with _ | qu <;> simp [hq0] <;> exact h1 p0 hp0

/-- Helper: the two C4 invariants hold after any operation sequence whose
submitted buys have non-negative quantities. -/
theorem c4_run (st : Broker.BState) (ops : List Broker.BOp)
    (h1 : Broker.posInvariant st) (h2 : Broker.ordersBuyNonneg st)
    (hops : Broker.buyQuantitiesNonneg ops) :
    Broker.posInvariant (Broker.runOps st ops) ∧
      Broker.ordersBuyNonneg (Broker.runOps st ops) := by
  induction ops generalizing st with
  | nil => exact ⟨h1, h2⟩
  | cons op rest ih =>
    cases op with
    | submit o =>
      have hops' : (o.side = .BUY → 0 ≤ o.quantity) ∧ Broker.buyQuantitiesNonneg rest := hops
      have hstep := c4_step st (.submit o) h1 h2
        (fun o2 ho2 => by cases ho2; exact hops'.1)
      exact ih _ hstep.1 hstep.2 hops'.2
    | execute oid q =>
      have hstep := c4_step st (.execute oid q) h1 h2 (fun o2 ho2 => by cases ho2)
      exact ih _ hstep.1 hstep.2 hops
    | cancel oid =>
      have hstep := c4_step st (.cancel oid) h1 h2 (fun o2 ho2 => by cases ho2)
      exact ih _ hstep.1 hstep.2 hops
    | settleT1 =>
      have hstep := c4_step st .settleT1 h1 h2 (fun o2 ho2 => by cases ho2)
      exact ih _ hstep.1 hstep.2 hops
    | readAccount quotes =>
      have hstep := c4_step st (.readAccount quotes) h1 h2 (fun o2 ho2 => by cases ho2)
      exact ih _ hstep.1 hstep.2 hops

/-- C4 counterexample: a buy request of −100 shares passes `validateOrder`
(JavaScript `-100 % 100` is `-0`, and a negative cash requirement passes
the funds check), and its fill leaves a position whose `availableShares`
(0) exceeds its `shares` (−100) — so the T+1 invariant does not hold
after arbitrary operation sequences. -/
theorem t1_violated_by_negative_quantity_buy :
    (Broker.submitOrder (Broker.initBroker 100000) c4NegOrder).1.success = true ∧
    ∃ p ∈ c4State.positions, p.shares < p.availableShares := by
  refine ⟨by decide, by decide⟩

/-- C4 (amended: submitted buys restricted to non-negative quantities):
`availableShares ≤ shares` holds for every position after any operation
sequence; a buy fill on a SUBMITTED order adds the quantity to `shares`
and leaves `availableShares` unchanged; the settlement sweep makes
`availableShares` equal to `shares`; and a sell request whose quantity
exceeds the position's `availableShares` is rejected by `validateOrder`. -/
theorem t1_availableShares_le_shares (c : ℚ) (ops : List Broker.BOp)
    (hops : Broker.buyQuantitiesNonneg ops) :
    Broker.posInvariant (Broker.runOps (Broker.initBroker c) ops) ∧
    (∀ (st : Broker.BState) (oid : ℕ) (q : Option Broker.Quote)
        (ord : Broker.Order) (pos : Broker.Position),
      Broker.lookupOrder st oid = some ord → ord.status = .SUBMITTED →
      ord.side = .BUY → Broker.lookupPos st ord.code = some pos →
      ∃ pos2, Broker.lookupPos (Broker.simulateExecution st oid q) ord.code = some pos2 ∧
        pos2.shares = pos.shares + ord.quantity ∧
        pos2.availableShares = pos.availableShares) ∧
    (∀ st : Broker.BState, ∀ p ∈ (Broker.updateAvailableShares st).positions,
      p.availableShares = p.shares) ∧
    (∀ (st : Broker.BState) (o : Broker.OrderReq), o.side = .SELL →
      ((Broker.lookupPos st o.code).map Broker.Position.availableShares).getD 0 < o.quantity →
      Broker.validateOrder st o = false) := by
  refine ⟨?_, ?_, ?_, ?_⟩
  · refine (c4_run (Broker.initBroker c) ops ?_ ?_ hops).1
    · intro p hp
      simp [Broker.initBroker] at hp
    · intro o ho hs
      simp [Broker.initBroker] at ho
  · intro st oid q ord pos hord hstat hside hpos
    have hcode := lookupPos_mem hpos
    simp only [Broker.simulateExecution]
    rw [hord]
    dsimp only
    rw [if_neg (by simpa using hstat), if_pos trivial, if_pos hside]
    rw [hpos]
    dsimp only [Option.getD]
    exact ⟨_, lookupPos_setPos_const hpos _ hcode.2, rfl, rfl⟩
  · intro st p hp
    rcases List.mem_map.1 hp with ⟨p0, _, rfl⟩
    rfl
  · intro st o hsell hlt
    unfold Broker.validateOrder
    split
    · rfl
    · split
      · rfl
      · rw [if_neg (by simp [hsell])]
        simpa using hlt

/-- Witness for C4: a 500-share buy, its fill and the settlement sweep
keep the T+1 invariant. -/
theorem t1_availableShares_le_shares_witness :
    Broker.buyQuantitiesNonneg
      [Broker.BOp.submit c2OrderA, Broker.BOp.execute 0 none, Broker.BOp.settleT1] ∧
    Broker.posInvariant (Broker.runOps (Broker.initBroker 100000)
      [Broker.BOp.submit c2OrderA, Broker.BOp.execute 0 none, Broker.BOp.settleT1]) :=
  ⟨⟨fun _ => by decide, trivial⟩,
   (t1_availableShares_le_shares 100000
     [Broker.BOp.submit c2OrderA, Broker.BOp.execute 0 none, Broker.BOp.settleT1]
     ⟨fun _ => by decide, trivial⟩).1⟩

/-- Helper: after a keyed id-preserving order update, looking up the id
finds the image of the previously stored order. -/
theorem lookupOrder_setOrder_found {st : Broker.BState} {oid : ℕ} {ord : Broker.Order}
    (hord : Broker.lookupOrder st oid = some ord)
    (f : Broker.Order → Broker.Order) (hf : ∀ o, (f o).orderId = o.orderId) :
    (Broker.setOrder st.orders oid f).find? (fun o => o.orderId = oid) = some (f ord) := by
  rw [find?_setOrder st.orders oid f hf]
  have hbase : st.orders.find? (fun o => o.orderId = oid) = some ord := hord
  rw [hbase]
  simp [(lookupOrder_mem hord).2]

/-- Helper: a keyed order update with an id-preserving function keeps each
element's id. -/
theorem setOrder_id_preserved (oid : ℕ) (f : Broker.Order → Broker.Order)
    (hf : ∀ o, (f o).orderId = o.orderId) (o : Broker.Order) :
    (if o.orderId = oid then f o else o).orderId = o.orderId := by
  split
  · exact hf o
  · rfl

/-- Helper: a keyed order update with an id-preserving function keeps the
pairwise distinctness of ids. -/
theorem pairwise_setOrder {os : List Broker.Order} {oid : ℕ}
    {f : Broker.Order → Broker.Order} (hf : ∀ o, (f o).orderId = o.orderId)
    (hp : os.Pairwise (fun a b => a.orderId ≠ b.orderId)) :
    (Broker.setOrder os oid f).Pairwise (fun a b => a.orderId ≠ b.orderId) := by
  unfold Broker.setOrder
  exact List.Pairwise.map _
    (fun a b hab => by
      rw [setOrder_id_preserved oid f hf a, setOrder_id_preserved oid f hf b]
      exact hab) hp

/-- Helper: one broker operation preserves well-formed statuses (only
SUBMITTED, FILLED, CANCELLED; FILLED means fully filled) and the
distinctness bookkeeping of order ids. -/
theorem c9_step (st : Broker.BState) (op : Broker.BOp)
    (h1 : Broker.ordersWellFormed st) (h2 : Broker.ordersDistinct st) :
    Broker.ordersWellFormed (Broker.applyOp st op) ∧
      Broker.ordersDistinct (Broker.applyOp st op) := by
  cases op with
  | submit o =>
    simp only [Broker.applyOp, Broker.submitOrder]
    split
    · exact ⟨h1, h2⟩
    · refine ⟨?_, ?_, ?_⟩
      · intro ord hord
        simp only [List.mem_append, List.mem_singleton] at hord
        rcases hord with hmem | rfl
        · exact h1 ord hmem
        · exact ⟨Or.inl rfl, fun hF => nomatch hF⟩
      · intro ord hord
        simp only [List.mem_append, List.mem_singleton] at hord
        rcases hord with hmem | rfl
        · exact Nat.lt_succ_of_lt (h2.1 ord hmem)
        · exact Nat.lt_succ_self st.nextId
      · rw [List.pairwise_append]
        refine ⟨h2.2, List.pairwise_singleton _ _, ?_⟩
        intro a ha b hb
        simp only [List.mem_singleton] at hb
        subst hb
        exact Nat.ne_of_lt (h2.1 a ha)
  | execute oid q =>
    simp only [Broker.applyOp, Broker.simulateExecution]
    rcases hord : Broker.lookupOrder st oid with _ | ord
    · exact ⟨h1, h2⟩
    · have hordm := lookupOrder_mem hord
      dsimp only
      by_cases hstat : ord.status = Broker.OrderStatus.SUBMITTED
      · rw [if_neg (by simpa using hstat), if_pos trivial]
        by_cases hside : ord.side = Broker.OrderSide.BUY
        · rw [if_pos hside]
          refine ⟨?_, ?_, ?_⟩
          · intro o2 ho2
            rcases mem_setOrder ho2 with hmem | ⟨o0, ho0, hkey, rfl⟩
            · exact h1 o2 hmem
            · refine ⟨Or.inr (Or.inl rfl), fun _ => ?_⟩
              have heq : o0 = ord :=
                pairwise_orderId_unique h2.2 o0 ho0 ord hordm.1 (hkey.trans hordm.2.symm)
              rw [heq]
          · intro o2 ho2
            rcases mem_setOrder ho2 with hmem | ⟨o0, ho0, _, rfl⟩
            · exact h2.1 o2 hmem
            · exact h2.1 o0 ho0
          · exact pairwise_setOrder (fun o => rfl) h2.2
        · rw [if_neg hside]
          refine ⟨?_, ?_, ?_⟩
          · intro o2 ho2
            rcases mem_setOrder ho2 with hmem | ⟨o0, ho0, hkey, rfl⟩
            · exact h1 o2 hmem
            · refine ⟨Or.inr (Or.inl rfl), fun _ => ?_⟩
              have heq : o0 = ord :=
                pairwise_orderId_unique h2.2 o0 ho0 ord hordm.1 (hkey.trans hordm.2.symm)
              rw [heq]
          · intro o2 ho2
            rcases mem_setOrder ho2 with hmem | ⟨o0, ho0, _, rfl⟩
            · exact h2.1 o2 hmem
            · exact h2.1 o0 ho0
          · exact pairwise_setOrder (fun o => rfl) h2.2
      · rw [if_pos (by simpa using hstat)]
        exact ⟨h1, h2⟩
  | cancel oid =>
    simp only [Broker.applyOp, Broker.cancelOrder]
    rcases hord : Broker.lookupOrder st oid with _ | ord
    · exact ⟨h1, h2⟩
    · dsimp only
      split
      · exact ⟨h1, h2⟩
      · refine ⟨?_, ?_, ?_⟩
        · intro o2 ho2
          rcases mem_setOrder ho2 with hmem | ⟨o0, ho0, _, rfl⟩
          · exact h1 o2 hmem
          · exact ⟨Or.inr (Or.inr rfl), fun hF => nomatch hF⟩
        · intro o2 ho2
          rcases mem_setOrder ho2 with hmem | ⟨o0, ho0, _, rfl⟩
          · exact h2.1 o2 hmem
          · exact h2.1 o0 ho0
        · exact pairwise_setOrder (fun o => rfl) h2.2
  | settleT1 => exact ⟨h1, h2⟩
  | readAccount quotes => exact ⟨h1, h2⟩

/-- Helper: the status/id invariants hold after any operation sequence. -/
theorem c9_run (st : Broker.BState) (ops : List Broker.BOp)
    (h1 : Broker.ordersWellFormed st) (h2 : Broker.ordersDistinct st) :
    Broker.ordersWellFormed (Broker.runOps st ops) ∧
      Broker.ordersDistinct (Broker.runOps st ops) := by
  induction ops generalizing st with
  | nil => exact ⟨h1, h2⟩
  | cons op rest ih =>
    have hstep := c9_step st op h1 h2
    exact ih _ hstep.1 hstep.2

/-- C9: in the simulated venue, every stored order's status is SUBMITTED,
FILLED or CANCELLED after any operation sequence (never PARTIAL_FILLED,
REJECTED or EXPIRED, and FILLED orders are fully filled); executing a
SUBMITTED order moves it directly to FILLED with `filledQuantity` equal
to the full order quantity in one step; and cancelling a SUBMITTED order
moves it to CANCELLED. -/
theorem venue_single_step_full_fill (c : ℚ) (ops : List Broker.BOp) :
    Broker.ordersWellFormed (Broker.runOps (Broker.initBroker c) ops) ∧
    (∀ (st : Broker.BState) (oid : ℕ) (q : Option Broker.Quote) (ord : Broker.Order),
      Broker.lookupOrder st oid = some ord → ord.status = .SUBMITTED →
      Broker.lookupOrder (Broker.simulateExecution st oid q) oid =
        some { ord with
          status := .FILLED, filledQuantity := ord.quantity,
          avgPrice := (Broker.execPrice ord.side ord.price q).getD 0 }) ∧
    (∀ (st : Broker.BState) (oid : ℕ) (ord : Broker.Order),
      Broker.lookupOrder st oid = some ord → ord.status = .SUBMITTED →
      Broker.lookupOrder (Broker.cancelOrder st oid).2 oid =
        some { ord with status := .CANCELLED }) := by
  refine ⟨?_, ?_, ?_⟩
  · refine (c9_run (Broker.initBroker c) ops ?_ ⟨?_, ?_⟩).1
    · intro o ho
      simp [Broker.initBroker] at ho
    · intro o ho
      simp [Broker.initBroker] at ho
    · simp [Broker.initBroker]
  · intro st oid q ord hord hstat
    simp only [Broker.simulateExecution]
    rw [hord]
    dsimp only
    rw [if_neg (by simpa using hstat), if_pos trivial]
    by_cases hside : ord.side = Broker.OrderSide.BUY
    · rw [if_pos hside]
      exact lookupOrder_setOrder_found hord _ (fun o => rfl)
    · rw [if_neg hside]
      exact lookupOrder_setOrder_found hord _ (fun o => rfl)
  · intro st oid ord hord hstat
    simp only [Broker.cancelOrder]
    rw [hord]
    dsimp only
    rw [if_neg (by simp [hstat])]
    exact lookupOrder_setOrder_found hord _ (fun o => rfl)

/-- Witness for C9: the concrete submitted buy of `c10Submitted` fills in
one step to FILLED with its full 100-share quantity at the clamped price. -/
theorem venue_single_step_full_fill_witness :
    Broker.lookupOrder c10Submitted 0 = some c9Ord ∧
    Broker.lookupOrder (Broker.simulateExecution c10Submitted 0 (some c9Quote)) 0 =
      some { c9Ord with
        status := .FILLED, filledQuantity := c9Ord.quantity,
        avgPrice := (Broker.execPrice c9Ord.side c9Ord.price (some c9Quote)).getD 0 } :=
  ⟨by decide,
   (venue_single_step_full_fill 100000 []).2.1 c10Submitted 0 (some c9Quote) c9Ord
     (by decide) (by decide)⟩

/-- Helper: invariants of the backoff retry loop — with a multiplier of at
least one and a starting delay within the cap, the recorded waits are
non-decreasing, their count is bounded by the remaining attempts, the
first wait equals the entry delay, and the reported attempt number stays
below the attempt budget. -/
theorem retryBackoffGo_spec (cfg : ErrHandler.EHConfig) (f : ℕ → Bool)
    (hm : 1 ≤ cfg.retryBackoffMultiplier) :
    ∀ (n attempt : ℕ) (d : ℚ), 0 ≤ d → d ≤ cfg.maxRetryDelay →
      List.Chain' (fun a b => a ≤ b) (ErrHandler.retryBackoffGo cfg f n attempt d).2 ∧
      (ErrHandler.retryBackoffGo cfg f n attempt d).2.length ≤ n ∧
      (∀ h t, (ErrHandler.retryBackoffGo cfg f n attempt d).2 = h :: t → h = d) ∧
      (∀ o k, (ErrHandler.retryBackoffGo cfg f n attempt d).1 = some o →
        o.attempts = some k → k < attempt + n) := by
  intro n
  induction n with
  | zero =>
    intro attempt d h0 hc
    refine ⟨List.chain'_nil, Nat.le_refl 0, ?_, ?_⟩
    · intro h t ht
      simp [ErrHandler.retryBackoffGo] at ht
    · intro o k ho hk
      simp [ErrHandler.retryBackoffGo] at ho
  | succ m ih =>
    intro attempt d h0 hc
    simp only [ErrHandler.retryBackoffGo]
    by_cases hf : f attempt = true
    · rw [if_pos hf]
      refine ⟨List.chain'_singleton d, by simp, ?_, ?_⟩
      · intro h t ht
        dsimp only at ht
        injection ht with h1 h2
        exact h1.symm
      · intro o k ho hk
        dsimp only at ho
        cases ho
        dsimp only at hk
        injection hk with h2
        omega
    · rw [if_neg hf]
      by_cases hz : m = 0
      · subst hz
        rw [if_pos rfl]
        refine ⟨List.chain'_singleton d, by simp, ?_, ?_⟩
        · intro h t ht
          dsimp only at ht
          injection ht with h1 h2
          exact h1.symm
        · intro o k ho hk
          dsimp only at ho
          cases ho
          dsimp only at hk
          injection hk with h2
          omega
      · rw [if_neg hz]
        have hmulnn : (0:ℚ) ≤ cfg.retryBackoffMultiplier := le_trans zero_le_one hm
        have hd0 : 0 ≤ min (d * cfg.retryBackoffMultiplier) cfg.maxRetryDelay :=
          le_min (mul_nonneg h0 hmulnn) (le_trans h0 hc)
        have hdc : min (d * cfg.retryBackoffMultiplier) cfg.maxRetryDelay ≤ cfg.maxRetryDelay :=
          min_le_right _ _
        have hdd : d ≤ min (d * cfg.retryBackoffMultiplier) cfg.maxRetryDelay :=
          le_min (le_mul_of_one_le_right h0 hm) hc
        have hrec := ih (attempt + 1) (min (d * cfg.retryBackoffMultiplier) cfg.maxRetryDelay) hd0 hdc
        refine ⟨?_, ?_, ?_, ?_⟩
        · refine List.chain'_cons'.2 ⟨?_, hrec.1⟩
          intro y hy
          rcases hws : (ErrHandler.retryBackoffGo cfg f m (attempt + 1)
              (min (d * cfg.retryBackoffMultiplier) cfg.maxRetryDelay)).2 with _ | ⟨w, ws⟩
          · rw [hws] at hy
            simp at hy
          · rw [hws] at hy
            simp at hy
            subst hy
            exact le_trans hdd (le_of_eq (hrec.2.2.1 _ ws hws).symm)
        · simpa using Nat.succ_le_succ hrec.2.1
        · intro h t ht
          injection ht with h1 h2
          exact h1.symm
        · intro o k ho hk
          have := hrec.2.2.2 o k ho hk
          omega

/-- C7: for every retryable operation, the waits performed by
`_retryWithBackoff` are non-decreasing (each delay is the previous one
times the configured multiplier, capped at `maxRetryDelay`), and the
number of attempts — one wait precedes each invocation of the operation —
never exceeds the configured maximum retry count. Stated under the
backoff well-formedness of the configuration (multiplier at least 1,
non-negative initial delay within the cap), satisfied by the defaults. -/
theorem retry_backoff_monotone_bounded (cfg : ErrHandler.EHConfig) (f : ℕ → Bool)
    (maxRetries : ℕ) (hm : 1 ≤ cfg.retryBackoffMultiplier)
    (h0 : 0 ≤ cfg.retryDelay) (hc : cfg.retryDelay ≤ cfg.maxRetryDelay) :
    List.Chain' (fun a b => a ≤ b) (ErrHandler.retryWithBackoff cfg (some f) maxRetries).2 ∧
    (ErrHandler.retryWithBackoff cfg (some f) maxRetries).2.length ≤ maxRetries ∧
    (∀ o k, (ErrHandler.retryWithBackoff cfg (some f) maxRetries).1 = some o →
      o.attempts = some k → k ≤ maxRetries) := by
  have h := retryBackoffGo_spec cfg f hm maxRetries 1 cfg.retryDelay h0 hc
  refine ⟨h.1, h.2.1, fun o k ho hk => ?_⟩
  have := h.2.2.2 o k ho hk
  omega

/-- Witness for C7: an always-failing operation under the default
configuration (1000ms initial delay, multiplier 2, 30000ms cap) with
three retries waits 1000, 2000, 4000 — non-decreasing and three attempts. -/
theorem retry_backoff_monotone_bounded_witness :
    (ErrHandler.retryWithBackoff {} (some (fun _ => false)) 3).2 = [1000, 2000, 4000] ∧
    List.Chain' (fun a b => a ≤ b) (ErrHandler.retryWithBackoff {} (some (fun _ => false)) 3).2 ∧
    (ErrHandler.retryWithBackoff {} (some (fun _ => false)) 3).2.length ≤ 3 :=
  ⟨by decide,
   (retry_backoff_monotone_bounded {} (fun _ => false) 3
     (by decide) (by decide) (by decide)).1,
   (retry_backoff_monotone_bounded {} (fun _ => false) 3
     (by decide) (by decide) (by decide)).2.1⟩

theorem retryDelayGo_fst_isSome (f : ℕ → Bool) (d : ℚ) :
    ∀ n a, 1 ≤ n → (ErrHandler.retryDelayGo f d n a).1.isSome = true := by
  intro n
  induction n with
  | zero =>
    intro a h
    omega
  | succ m ih =>
    intro a _
    simp only [ErrHandler.retryDelayGo]
    by_cases hf : f a = true
    · rw [if_pos hf]
      rfl
    · rw [if_neg hf]
      by_cases hz : m = 0
      · subst hz
        rw [if_pos rfl]
        rfl
      · rw [if_neg hz]
        exact ih (a + 1) (by omega)

theorem retryBackoffGo_fst_isSome (cfg : ErrHandler.EHConfig) (f : ℕ → Bool) :
    ∀ n a d, 1 ≤ n → (ErrHandler.retryBackoffGo cfg f n a d).1.isSome = true := by
  intro n
  induction n with
  | zero =>
    intro a d h
    omega
  | succ m ih =>
    intro a d _
    simp only [ErrHandler.retryBackoffGo]
    by_cases hf : f a = true
    · rw [if_pos hf]
      rfl
    · rw [if_neg hf]
      by_cases hz : m = 0
      · subst hz
        rw [if_pos rfl]
        rfl
      · rw [if_neg hz]
        exact ih (a + 1) _ (by omega)

theorem executeRecovery_table_isSome (cfg : ErrHandler.EHConfig) (t : ErrHandler.ErrorType)
    (ctx : ErrHandler.Ctx) :
    (ErrHandler.executeRecovery cfg (ErrHandler.recoveryStrategies t) ctx).isSome = true := by
  have hd : ∀ k, 1 ≤ k →
      (ErrHandler.retryWithDelay ctx.operation k cfg.retryDelay).1.isSome = true := by
    intro k hk
    simp only [ErrHandler.retryWithDelay]
    cases hop : ctx.operation with
    | none => rfl
    | some f => exact retryDelayGo_fst_isSome f cfg.retryDelay k 1 hk
  have hb : ∀ k, 1 ≤ k →
      (ErrHandler.retryWithBackoff cfg ctx.operation k).1.isSome = true := by
    intro k hk
    simp only [ErrHandler.retryWithBackoff]
    cases hop : ctx.operation with
    | none => rfl
    | some f => exact retryBackoffGo_fst_isSome cfg f k 1 cfg.retryDelay hk
  cases t <;>
    simp only [ErrHandler.recoveryStrategies, ErrHandler.executeRecovery, Option.getD_some] <;>
    first
    | rfl
    | exact hd _ (by decide)
    | exact hb _ (by decide)
    | (cases ctx.fallback with
       | none => rfl
       | some b => cases b <;> rfl)

/-- C6 (amended): restricted to error inputs that carry a string `message`
— every `Error` instance does, and every already-typed `TradingError` —
`handle` never throws and always resolves with a structured outcome
object holding an `action` string and a boolean `continue`, together with
the updated handler state: the classification total-maps every error kind
to a strategy whose execution returns an outcome (every retry entry of
the static table has at least one attempt). Inputs without a `message`
(thrown strings, `null`) make `_wrapError` throw, as the counterexample
shows. -/
theorem handle_total_on_message_inputs (cfg : ErrHandler.EHConfig) (st : ErrHandler.EHState)
    (now : ℤ) (inp : ErrHandler.ErrInput) (ctx : ErrHandler.Ctx)
    (h : ErrHandler.hasMessage inp) :
    ∃ o st', ErrHandler.handle cfg st now inp ctx = .ok (some o, st') := by
  cases inp with
  | trading e =>
    have hsome := executeRecovery_table_isSome cfg e.etype ctx
    rcases Option.isSome_iff_exists.1 hsome with ⟨o, ho⟩
    refine ⟨o, ErrHandler.recordError cfg st e now, ?_⟩
    simp only [ErrHandler.handle]
    rw [ho]
  | plain m =>
    have h' : m.isSome = true := h
    rcases Option.isSome_iff_exists.1 h' with ⟨s, rfl⟩
    obtain ⟨te, hw⟩ : ∃ te, ErrHandler.wrapError (some s) = .ok te := ⟨_, rfl⟩
    have hsome := executeRecovery_table_isSome cfg te.etype ctx
    rcases Option.isSome_iff_exists.1 hsome with ⟨o, ho⟩
    refine ⟨o, ErrHandler.recordError cfg st te now, ?_⟩
    simp only [ErrHandler.handle]
    rw [hw]
    dsimp only
    rw [ho]

theorem handle_total_on_message_inputs_witness :
    ∃ o st', ErrHandler.handle {} {} 0
      (.trading ⟨.QUOTE_DELAYED, .LOW, true, "quote delayed"⟩) {} = .ok (some o, st') :=
  handle_total_on_message_inputs {} {} 0
    (.trading ⟨.QUOTE_DELAYED, .LOW, true, "quote delayed"⟩) {} trivial

/-- C5 counterexample: on a tick where the strategy emits a SELL signal and
the stop (9) is simultaneously breached (price 8.5), `processSymbol`
submits the signal-pipeline sell limit order FIRST and the stop-loss
market sell only afterwards — the stop-loss check runs after, not before,
the strategy signal, so stop submissions do not precede signal
submissions in the tick trace. -/
theorem stop_loss_runs_after_signal_pipeline :
    c5Trace = [Engine.TraceEv.signalSubmit c5SignalOrder true,
               Engine.TraceEv.stopSubmit c5StopOrder true] ∧
    ¬ Engine.stopsPrecedeSignals c5Trace := by
  have htr : c5Trace = [Engine.TraceEv.signalSubmit c5SignalOrder true,
      Engine.TraceEv.stopSubmit c5StopOrder true] := by decide
  refine ⟨htr, fun h => ?_⟩
  rw [htr] at h
  exact absurd (h 1 0 (by decide) (by decide) (by decide) (by decide)) (by decide)

theorem executeBuyStep_events (cfg : Engine.EConfig) (symbol : String)
    (sig : Engine.Signal) (quote : AShare.EQuote) (account : Broker.Account)
    (circuit : Option CircuitBreaker.CheckResult) (bst : Broker.BState)
    (cb : CircuitBreaker.State) :
    ∀ e ∈ (Engine.executeBuyStep cfg symbol sig quote account circuit bst cb).1,
      e.isSignalEv = true := by
  unfold Engine.executeBuyStep
  rcases Engine.executeBuyOrder cfg symbol sig quote account circuit with _ | o
  · intro e he
    simp at he
  · intro e he
    simp at he
    subst he
    rfl

theorem executeSellStep_events (symbol : String) (sig : Engine.Signal)
    (quote : AShare.EQuote) (p : Broker.Position) (bst : Broker.BState)
    (cb : CircuitBreaker.State) :
    ∀ e ∈ (Engine.executeSellStep symbol sig quote p bst cb).1,
      e.isSignalEv = true := by
  intro e he
  unfold Engine.executeSellStep at he
  dsimp only at he
  split at he
  · simp at he
  · simp at he
    subst he
    rfl

theorem handleSignal_events (cfg : Engine.EConfig) (cbCfg : CircuitBreaker.Config)
    (symbol : String) (sig : Engine.Signal) (quote : AShare.EQuote)
    (account : Broker.Account) (position : Option Broker.Position)
    (risk : Engine.RiskStatus) (clock : AShare.SessionClock) (nowMs : ℤ)
    (bst : Broker.BState) (cb : CircuitBreaker.State) :
    ∀ e ∈ (Engine.handleSignal cfg cbCfg symbol sig quote account position
        risk clock nowMs bst cb).1, e.isSignalEv = true := by
  intro e he
  unfold Engine.handleSignal at he
  dsimp only at he
  repeat' split at he
  all_goals first
    | simp at he
    | exact executeBuyStep_events _ _ _ _ _ _ _ _ e he
    | exact executeSellStep_events _ _ _ _ _ _ e he

theorem checkStopLossStep_events (symbol : String) (quote : AShare.EQuote)
    (p : Broker.Position) (strategyStop : Option ℚ) (bst : Broker.BState) :
    ∀ e ∈ (Engine.checkStopLossStep symbol quote p strategyStop bst).1,
      e.isStopEv = true := by
  intro e he
  unfold Engine.checkStopLossStep at he
  repeat' split at he
  all_goals first
    | (simp at he
       subst he
       rfl)
    | simp at he

/-- C5 (amended): on each live-trading tick the strategy signal is handled
FIRST and the stop-loss check runs after it: every tick trace splits as
signal-pipeline submissions followed by stop-loss submissions. The
direct-submission half of the claim stands — a triggered stop converts
into a market sell submitted straight to the broker, bypassing the
circuit-breaker, session and compliance checks of the signal pipeline —
but its ordering half is reversed. -/
theorem processSymbol_signals_precede_stops (cfg : Engine.EConfig)
    (cbCfg : CircuitBreaker.Config) (symbol : String) (quote : AShare.EQuote)
    (sig : Option Engine.Signal) (strategyStop : Option ℚ)
    (risk : Engine.RiskStatus) (clock : AShare.SessionClock) (nowMs : ℤ)
    (histLen : ℕ) (cached : String → Option Broker.Quote)
    (bst : Broker.BState) (cb : CircuitBreaker.State) :
    ∃ pre post,
      (Engine.processSymbol cfg cbCfg symbol quote sig strategyStop risk clock
        nowMs histLen cached bst cb).1 = pre ++ post ∧
      (∀ e ∈ pre, e.isSignalEv = true) ∧
      (∀ e ∈ post, e.isStopEv = true) := by
  unfold Engine.processSymbol
  split
  · refine ⟨[], [], rfl, ?_, ?_⟩ <;> (intro e he; simp at he)
  · refine ⟨_, _, rfl, ?_, ?_⟩
    · rcases sig with _ | s
      · intro e he
        simp at he
      · exact handleSignal_events _ _ _ _ _ _ _ _ _ _ _ _
    · intro e he
      split at he
      · split at he
        · exact checkStopLossStep_events _ _ _ _ _ e he
        · simp at he
      · simp at he
